import Mathlib

/-! sriovnet: switchdev representor lookup

A shallow embedding of `sriovnet_switchdev.go` (`parsePortName`, `isSwitchdev`,
`GetUplinkRepresentor`, `GetVfRepresentor`, `getNetDevPhysPortName`) together with the
parts of the Go standard library the code calls (`strings.TrimSpace`, `strconv.Atoi`,
and the two compiled regular expressions).

Conventions of the embedding:

* a Go `string` / `[]byte` holding valid UTF-8 is a Lean `String` (a list of code points);
* a Go `int` is a Lean `Int`; the only place where the 64-bit width matters is
  `strconv.Atoi`, which clamps and reports a range error, and that is modelled explicitly;
* a Go `error` is an `Option GoError`, `none` being `nil`;
* a Go function that can hit a run-time panic returns a `Run`.
-/

namespace Sriovnet

/-! ## Go values -/

/-- Go error values that occur in the code. `errorf` is an error built by `fmt.Errorf`
inside this package and carries its message; `fs` is an error handed back by the file-system
capability, carrying the text its `Error()` method yields; `numSyn` and `numRange` are the
`*strconv.NumError` values with `Err = ErrSyntax` and `Err = ErrRange`, carrying the
offending input. -/
inductive GoError where
  | errorf (msg : String)
  | fs (msg : String)
  | numSyn (num : String)
  | numRange (num : String)
  deriving DecidableEq, Repr

deriving instance DecidableEq for Except

/-- Outcome of running a Go function: it returns a value, or the run-time system panics. -/
inductive Run (α : Type) where
  | returned (a : α)
  | panicked
  deriving DecidableEq, Repr

/-! ## `strings.TrimSpace` -/

/-- Go `unicode.IsSpace`: the Latin-1 cases of its switch and the `White_Space` range table. -/
def isSpace (c : Char) : Bool :=
  let r := c.toNat
  (0x09 ≤ r && r ≤ 0x0d) || r == 0x20 || r == 0x85 || r == 0xA0 || r == 0x1680 ||
    (0x2000 ≤ r && r ≤ 0x200a) || r == 0x2028 || r == 0x2029 || r == 0x202f ||
    r == 0x205f || r == 0x3000

/-- Go `strings.TrimSpace` on code points: leading white space is dropped, then trailing. -/
def trimSpaceChars (cs : List Char) : List Char :=
  (cs.dropWhile isSpace).rdropWhile isSpace

/-- Go `strings.TrimSpace`. -/
def TrimSpace (s : String) : String := ⟨trimSpaceChars s.data⟩

/-! ## `strconv.Atoi` (64-bit `int`) -/

/-- The regular-expression class `\d` (also the digit test of `strconv`): ASCII `0`-`9`. -/
def isDigit (c : Char) : Bool := 48 ≤ c.toNat && c.toNat ≤ 57

/-- Result of the digit loop of `strconv.ParseUint`. -/
inductive UintResult where
  | value (n : Nat)
  | invalid
  | overflow
  deriving DecidableEq, Repr

/-- The `cutoff` of `strconv.ParseUint` for base 10: `maxUint64/10 + 1`. -/
def uintCutoff : Nat := (2 ^ 64 - 1) / 10 + 1

/-- The `maxVal` of `strconv.ParseUint` for 64 bits. -/
def uintMax : Nat := 2 ^ 64 - 1

/-- The loop of `strconv.ParseUint(s, 10, 64)` with accumulator `n`: a character that is not a
decimal digit is a syntax error, an accumulator that leaves the 64-bit range is a range error,
whichever the loop meets first. -/
def parseUintLoop : Nat → List Char → UintResult
  | n, [] => .value n
  | n, c :: cs =>
    if !isDigit c then .invalid
    else if n ≥ uintCutoff then .overflow
    else
      let n1 := n * 10 + (c.toNat - 48)
      if n1 > uintMax then .overflow else parseUintLoop n1 cs

/-- Go `strconv.ParseUint(s, 10, 64)` without the error value. -/
def parseUint (cs : List Char) : UintResult :=
  if cs = [] then .invalid else parseUintLoop 0 cs

/-- Go `strconv.Atoi` for a 64-bit `int`, as the pair `(value, err)` that Go returns.
The sign is picked off, the digits go through `ParseUint`, and the result is clamped to
the `int64` range with a range error. The fast path of `Atoi` for short inputs computes the
same pair. -/
def Atoi (s : String) : Int × Option GoError :=
  match s.data with
  | [] => (0, some (.numSyn s))
  | c :: cs =>
    let neg : Bool := c == '-'
    let body : List Char := if c == '+' || c == '-' then cs else c :: cs
    match parseUint body with
    | .invalid => (0, some (.numSyn s))
    | .overflow =>
      if neg then (-(2 ^ 63 : Int), some (.numRange s)) else ((2 ^ 63 : Int) - 1, some (.numRange s))
    | .value un =>
      if !neg && un ≥ 2 ^ 63 then ((2 ^ 63 : Int) - 1, some (.numRange s))
      else if neg && un > 2 ^ 63 then (-(2 ^ 63 : Int), some (.numRange s))
      else (if neg then -(un : Int) else (un : Int), none)

/-! ## The two regular expressions -/

/-- Attempt to match `pf(\d+)vf(\d+)` at the very start of `cs`. Both `\d+` are greedy and what
follows the first one is not a digit, so each group is the longest run of digits at its place.
The result is the whole match and the two groups. -/
def physPortReMatchAt (cs : List Char) : Option (List Char × List Char × List Char) :=
  match cs with
  | 'p' :: 'f' :: r1 =>
    let g1 := r1.takeWhile isDigit
    match r1.dropWhile isDigit with
    | 'v' :: 'f' :: r2 =>
      let g2 := r2.takeWhile isDigit
      if g1 = [] ∨ g2 = [] then none
      else some ('p' :: 'f' :: g1 ++ 'v' :: 'f' :: g2, g1, g2)
    | _ => none
  | _ => none

/-- The leftmost match of `pf(\d+)vf(\d+)` in `cs`. -/
def physPortReFind : List Char → Option (List Char × List Char × List Char)
  | [] => none
  | c :: cs =>
    match physPortReMatchAt (c :: cs) with
    | some m => some m
    | none => physPortReFind cs

/-- Go `physPortRe.FindStringSubmatch(s)` for `physPortRe = pf(\d+)vf(\d+)`: `nil` when the
pattern occurs nowhere in `s`, else the leftmost match followed by its two groups. -/
def physPortRe_FindStringSubmatch (s : String) : List String :=
  match physPortReFind s.data with
  | none => []
  | some (whole, g1, g2) => [⟨whole⟩, ⟨g1⟩, ⟨g2⟩]

/-- Whether `p\d+` occurs somewhere in `cs`. -/
def pfPhysPortNameReFind : List Char → Bool
  | [] => false
  | c :: cs =>
    (c == 'p' && (match cs with
      | d :: _ => isDigit d
      | [] => false)) || pfPhysPortNameReFind cs

/-- Go `pfPhysPortNameRe.MatchString(s)` for `pfPhysPortNameRe = p\d+` (no anchors). -/
def pfPhysPortNameRe_MatchString (s : String) : Bool := pfPhysPortNameReFind s.data

/-! ## `parsePortName` -/

/-- Go `parsePortName`: returns `(pfRepIndex, vfRepIndex, err)`. -/
def parsePortName (physPortName : String) : Int × Int × Option GoError :=
  let physPortName := TrimSpace physPortName
  match Atoi physPortName with
  | (physPortNameInt, none) => (-1, physPortNameInt, none)
  | (_, some _) =>
    match physPortRe_FindStringSubmatch physPortName with
    | [_, m1, m2] =>
      match Atoi m1 with
      | (pfRepIndex, none) =>
        let r := Atoi m2
        (pfRepIndex, r.1, r.2)
      | (pfRepIndex, some e) => (pfRepIndex, -1, some e)
    | _ => (-1, -1, some (.errorf ("failed to parse physPortName " ++ physPortName)))

/-! ## The environment -/

/-- Everything the code takes from outside `sriovnet_switchdev.go`: the two directory
constants, `filepath.Join`, the two operations of the process-wide handle `utilfs.Fs` that
the code calls, and the helper `getPCIFromDeviceName`, which lives in another file of the
package. A failed operation yields the text of its error. All of them are parameters: every
theorem below holds for each choice of them. -/
structure Env where
  NetSysDir : String
  PciSysDir : String
  Join : List String → String
  ReadFile : String → Except String String
  ReadDir : String → Except String (List String)
  getPCIFromDeviceName : String → Except String String

def netdevPhysSwitchID : String := "phys_switch_id"

def netdevPhysPortName : String := "phys_port_name"

/-- Go `isSwitchdev`. A `nil` byte slice converts to the empty string, so the test
`physSwitchID != nil && string(physSwitchID) != ""` is the test on the string alone. -/
def isSwitchdev (env : Env) (netdevice : String) : Bool :=
  let swIDFile := env.Join [env.NetSysDir, netdevice, netdevPhysSwitchID]
  match env.ReadFile swIDFile with
  | .error _ => false
  | .ok physSwitchID => if physSwitchID ≠ "" then true else false

/-- Go `getNetDevPhysPortName`; the error is the one of `ReadFile`. -/
def getNetDevPhysPortName (env : Env) (netDev : String) : Except String String :=
  let devicePortNameFile := env.Join [env.NetSysDir, netDev, netdevPhysPortName]
  match env.ReadFile devicePortNameFile with
  | .error err => .error err
  | .ok physPortName => .ok (TrimSpace physPortName)

/-! ## `GetUplinkRepresentor` -/

/-- The `for` loop of `GetUplinkRepresentor` over the remaining `devices`, followed by the
statement after the loop. -/
def uplinkLoop (env : Env) (vfPciAddress : String) : List String → String × Option GoError
  | [] => ("", some (.errorf ("uplink for " ++ vfPciAddress ++ " not found")))
  | device :: devices =>
    if isSwitchdev env device then
      match getNetDevPhysPortName env device with
      | .ok devicePhysPortName =>
        if !pfPhysPortNameRe_MatchString devicePhysPortName then
          uplinkLoop env vfPciAddress devices
        else (device, none)
      | .error _ => (device, none)
    else uplinkLoop env vfPciAddress devices

/-- Go `GetUplinkRepresentor`. -/
def GetUplinkRepresentor (env : Env) (vfPciAddress : String) : String × Option GoError :=
  let devicePath := env.Join [env.PciSysDir, vfPciAddress, "physfn/net"]
  match env.ReadDir devicePath with
  | .error err => ("", some (.errorf ("failed to lookup " ++ vfPciAddress ++ ": " ++ err)))
  | .ok devices => uplinkLoop env vfPciAddress devices

/-! ## `GetVfRepresentor` -/

/-- The Go expression `string(s[len(s)-1])`: `none` when `s` is empty (the index is out of
range and the program panics), else the last byte of `s` converted to a string. The last byte
of the UTF-8 encoding of a code point below 128 is the code point itself; of any other code
point `r` it is the continuation byte `128 + r % 64`, and `string(b)` of a byte is the string
of the code point with that number. -/
def lastByteString (s : String) : Option String :=
  match s.data.getLast? with
  | none => none
  | some c => some (String.singleton (if c.toNat < 128 then c else Char.ofNat (128 + c.toNat % 64)))

/-- What one pass through the body of a `for` loop does. -/
inductive Flow where
  | next
  | ret (name : String)
  | panic
  deriving DecidableEq, Repr

/-- The block `if pfRepIndex != -1 { ... }` of `GetVfRepresentor`: `returned true` when
control falls through to the statement after the block, `returned false` when the block
executes `continue`, `panicked` when indexing the PCI address panics. -/
def pfIndexBlock (env : Env) (uplink : String) (pfRepIndex : Int) : Run Bool :=
  if pfRepIndex ≠ -1 then
    match env.getPCIFromDeviceName uplink with
    | .error _ => .returned false
    | .ok pfPCIAddress =>
      match lastByteString pfPCIAddress with
      | none => .panicked
      | some last =>
        match Atoi last with
        | (PCIFuncAddress, err) =>
          if pfRepIndex ≠ PCIFuncAddress ∨ err ≠ none then .returned false else .returned true
  else .returned true

/-- The body of the `for` loop of `GetVfRepresentor` for one `device`. The error of
`parsePortName` is discarded, as in the code. -/
def vfRepBody (env : Env) (uplink : String) (vfIndex : Int) (physSwitchID : String)
    (device : String) : Flow :=
  let devicePath := env.Join [env.NetSysDir, device]
  let deviceSwIDFile := env.Join [devicePath, netdevPhysSwitchID]
  match env.ReadFile deviceSwIDFile with
  | .error _ => .next
  | .ok deviceSwID =>
    if deviceSwID ≠ physSwitchID then .next
    else
      match getNetDevPhysPortName env device with
      | .error _ => .next
      | .ok physPortNameStr =>
        match parsePortName physPortNameStr with
        | (pfRepIndex, vfRepIndex, _) =>
          match pfIndexBlock env uplink pfRepIndex with
          | .panicked => .panic
          | .returned false => .next
          | .returned true => if vfRepIndex = vfIndex then .ret device else .next

/-- The `for` loop of `GetVfRepresentor` over the remaining `devices`, followed by the
statement after the loop. -/
def vfRepLoop (env : Env) (uplink : String) (vfIndex : Int) (physSwitchID : String) :
    List String → Run (String × Option GoError)
  | [] => .returned ("", some (.errorf ("failed to find VF representor for uplink " ++ uplink)))
  | device :: devices =>
    match vfRepBody env uplink vfIndex physSwitchID device with
    | .next => vfRepLoop env uplink vfIndex physSwitchID devices
    | .ret name => .returned (name, none)
    | .panic => .panicked

/-- Go `GetVfRepresentor`. -/
def GetVfRepresentor (env : Env) (uplink : String) (vfIndex : Int) :
    Run (String × Option GoError) :=
  let swIDFile := env.Join [env.NetSysDir, uplink, netdevPhysSwitchID]
  match env.ReadFile swIDFile with
  | .error _ => .returned ("", some (.errorf ("cant get uplink " ++ uplink ++ " switch id")))
  | .ok physSwitchID =>
    if physSwitchID = "" then
      .returned ("", some (.errorf ("cant get uplink " ++ uplink ++ " switch id")))
    else
      let pfSubsystemPath := env.Join [env.NetSysDir, uplink, "subsystem"]
      match env.ReadDir pfSubsystemPath with
      | .error err => .returned ("", some (.fs err))
      | .ok devices => vfRepLoop env uplink vfIndex physSwitchID devices

/-! ## A concrete environment

An in-memory file system in the manner of the package tests (`NewFakeFs`), for evaluating the
functions on concrete inputs. -/

/-- Path joining for the concrete environments: the non-empty elements separated by `/`. It
agrees with `filepath.Join` on the elements used in these environments, which are clean paths
(no `.` or `..` element, no doubled or trailing separator); `filepath.Join` would also clean
the result. The theorems on an arbitrary `Env` do not depend on it. -/
def fakeJoin (elems : List String) : String :=
  "/".intercalate (elems.filter (fun e => e ≠ ""))

/-- The concrete environment with the given files, directories and PCI addresses of
netdevices; `NetSysDir` and `PciSysDir` are the sysfs locations named in the tests. -/
def fakeEnv (files : List (String × String)) (dirs : List (String × List String))
    (pci : List (String × String)) : Env where
  NetSysDir := "/sys/class/net"
  PciSysDir := "/sys/bus/pci/devices"
  Join := fakeJoin
  ReadFile := fun p =>
    match files.lookup p with
    | some content => .ok content
    | none => .error ("open " ++ p ++ ": file does not exist")
  ReadDir := fun p =>
    match dirs.lookup p with
    | some names => .ok names
    | none => .error ("open " ++ p ++ ": file does not exist")
  getPCIFromDeviceName := fun dev =>
    match pci.lookup dev with
    | some addr => .ok addr
    | none => .error ("no PCI address for " ++ dev)

/-- The fixture of `TestGetUplinkRepresentorWithPhysPortNameSuccess`, with the uplink at PCI
address `0000:03:00.0` and a `subsystem` listing of the three netdevices. The directory
listing is sorted by name, as `ReadDir` returns it. -/
def testEnv (uplinkPort : String) (repSwID0 repSwID1 : String) : Env :=
  fakeEnv
    [("/sys/class/net/eth0/phys_port_name", uplinkPort),
     ("/sys/class/net/eth0/phys_switch_id", "111111"),
     ("/sys/class/net/enp_0/phys_port_name", "pf0vf0"),
     ("/sys/class/net/enp_0/phys_switch_id", repSwID0),
     ("/sys/class/net/enp_1/phys_port_name", "pf0vf1"),
     ("/sys/class/net/enp_1/phys_switch_id", repSwID1)]
    [("/sys/bus/pci/devices/0000:03:00.4/physfn/net", ["enp_0", "enp_1", "eth0"]),
     ("/sys/class/net/eth0/subsystem", ["enp_0", "enp_1", "eth0"])]
    [("eth0", "0000:03:00.0")]

/-- The environment of the failing input of C5: the uplink `eth0` at PCI function 0 and one
sibling `enp_2` in its switch domain whose port name has a VF number that does not fit the
64-bit `int`. -/
def overflowEnv : Env :=
  fakeEnv
    [("/sys/class/net/eth0/phys_port_name", "p0"),
     ("/sys/class/net/eth0/phys_switch_id", "111111"),
     ("/sys/class/net/enp_2/phys_port_name", "pf0vf9223372036854775808"),
     ("/sys/class/net/enp_2/phys_switch_id", "111111")]
    [("/sys/class/net/eth0/subsystem", ["enp_2", "eth0"])]
    [("eth0", "0000:03:00.0")]

/-- The environment of the failing input of C17: the fixture of the specification in which
the PCI address of the uplink `eth0` resolves, without error, to the empty string. -/
def emptyAddrEnv : Env :=
  fakeEnv
    [("/sys/class/net/eth0/phys_port_name", "p0"),
     ("/sys/class/net/eth0/phys_switch_id", "111111"),
     ("/sys/class/net/enp_0/phys_port_name", "pf0vf0"),
     ("/sys/class/net/enp_0/phys_switch_id", "111111"),
     ("/sys/class/net/enp_1/phys_port_name", "pf0vf1"),
     ("/sys/class/net/enp_1/phys_switch_id", "111111")]
    [("/sys/class/net/eth0/subsystem", ["enp_0", "enp_1", "eth0"])]
    [("eth0", "")]

/-- An environment in which the uplink's PCI address resolves to a string whose last
character is not a decimal digit (function `a`), with one sibling in the current encoding and
one in the legacy encoding. -/
def hexFunctionEnv : Env :=
  fakeEnv
    [("/sys/class/net/eth0/phys_port_name", "p0"),
     ("/sys/class/net/eth0/phys_switch_id", "111111"),
     ("/sys/class/net/enp_0/phys_port_name", "pf0vf1"),
     ("/sys/class/net/enp_0/phys_switch_id", "111111"),
     ("/sys/class/net/enp_1/phys_port_name", "1"),
     ("/sys/class/net/enp_1/phys_switch_id", "111111")]
    [("/sys/class/net/eth0/subsystem", ["enp_0", "enp_1", "eth0"])]
    [("eth0", "0000:03:00.a")]

/-- The environment of the failing input of C1: the physical function of the VF has two
netdevices in one switch domain, `eth0` with port name `p0s1` and `eth1` with port name
`p1`. -/
def splitPortEnv : Env :=
  fakeEnv
    [("/sys/class/net/eth0/phys_port_name", "p0s1"),
     ("/sys/class/net/eth0/phys_switch_id", "111111"),
     ("/sys/class/net/eth1/phys_port_name", "p1"),
     ("/sys/class/net/eth1/phys_switch_id", "111111")]
    [("/sys/bus/pci/devices/0000:03:00.4/physfn/net", ["eth0", "eth1"])]
    []

/-! ## Specification vocabulary -/

/-- The path of the `phys_switch_id` attribute of a netdevice, as `isSwitchdev` and the head of
`GetVfRepresentor` build it. -/
def swIDFile (env : Env) (device : String) : String :=
  env.Join [env.NetSysDir, device, netdevPhysSwitchID]

/-- The path of the `phys_port_name` attribute of a netdevice. -/
def portNameFile (env : Env) (device : String) : String :=
  env.Join [env.NetSysDir, device, netdevPhysPortName]

/-- The device has a readable, non-empty `phys_switch_id`. -/
def HasSwitchID (env : Env) (device : String) : Prop :=
  ∃ id, env.ReadFile (swIDFile env device) = .ok id ∧ id ≠ ""

/-- The uplink-port naming convention `p<digits>`: the letter `p` followed by one or more
decimal digits and nothing else. -/
def IsUplinkPortName (s : String) : Prop :=
  ∃ ds : List Char, ds ≠ [] ∧ (∀ c ∈ ds, isDigit c = true) ∧ s.data = 'p' :: ds

/-- A listed entry survives both checks of the uplink search as the specification states
them: its `phys_switch_id` is readable and non-empty, and its `phys_port_name` is unreadable
or its trimmed content is of the form `p<digits>`. -/
def SurvivesUplinkChecks (env : Env) (device : String) : Prop :=
  HasSwitchID env device ∧
    ((∃ e, env.ReadFile (portNameFile env device) = .error e) ∨
     (∃ raw, env.ReadFile (portNameFile env device) = .ok raw ∧
        IsUplinkPortName (TrimSpace raw)))

/-- The string contains the letter `p` directly followed by a decimal digit. -/
def ContainsPDigit (s : String) : Prop :=
  ∃ (pre : List Char) (d : Char) (post : List Char),
    isDigit d = true ∧ s.data = pre ++ 'p' :: d :: post

/-- A listed entry has a readable, non-empty `phys_switch_id`, and its `phys_port_name` is
unreadable or its trimmed content contains `p` directly followed by a digit. -/
def AcceptedByUplinkLoop (env : Env) (device : String) : Prop :=
  HasSwitchID env device ∧
    ((∃ e, env.ReadFile (portNameFile env device) = .error e) ∨
     (∃ raw, env.ReadFile (portNameFile env device) = .ok raw ∧
        ContainsPDigit (TrimSpace raw)))

/-- Decision procedure for `IsUplinkPortName`. -/
def isUplinkPortNameB (s : String) : Bool :=
  match s.data with
  | [] => false
  | c :: ds => c == 'p' && !ds.isEmpty && ds.all isDigit

/-- Decision procedure for `SurvivesUplinkChecks`. -/
def survivesUplinkChecksB (env : Env) (device : String) : Bool :=
  isSwitchdev env device &&
    (match env.ReadFile (portNameFile env device) with
     | .error _ => true
     | .ok raw => isUplinkPortNameB (TrimSpace raw))

/-- The decision the loop body of `GetUplinkRepresentor` takes on one entry. -/
def uplinkAccepts (env : Env) (device : String) : Bool :=
  isSwitchdev env device &&
    (match getNetDevPhysPortName env device with
     | .ok devicePhysPortName => pfPhysPortNameRe_MatchString devicePhysPortName
     | .error _ => true)

/-- A sibling passes steps (a)-(e) of the representor search for the uplink with switch id
`sw`: its `phys_switch_id` is readable and equal to `sw`, its `phys_port_name` is readable
and parses without error, the parsed `pfRepIndex` is absent (`-1`) or is what `Atoi` makes of
the last character of the uplink's PCI address, and the parsed `vfRepIndex` is the target. -/
def PassesVfChecks (env : Env) (uplink : String) (vfIndex : Int) (sw : String)
    (device : String) : Prop :=
  env.ReadFile (env.Join [env.Join [env.NetSysDir, device], netdevPhysSwitchID]) = .ok sw ∧
    ∃ port pf vf, getNetDevPhysPortName env device = .ok port ∧
      parsePortName port = (pf, vf, none) ∧
      (pf = -1 ∨ ∃ addr c, env.getPCIFromDeviceName uplink = .ok addr ∧
        addr.data.getLast? = some c ∧ Atoi (String.singleton c) = (pf, none)) ∧
      vf = vfIndex

/-- The string contains a match of `pf<digits>vf<digits>`: somewhere in it stand `pf`, one or
more decimal digits, `vf` and one or more decimal digits. -/
def ContainsPfVf (s : String) : Prop :=
  ∃ pre d1 d2 post : List Char, d1 ≠ [] ∧ d2 ≠ [] ∧ (∀ c ∈ d1, isDigit c = true) ∧
    (∀ c ∈ d2, isDigit c = true) ∧ s.data = pre ++ 'p' :: 'f' :: d1 ++ 'v' :: 'f' :: d2 ++ post

/-- The string is exactly `pf<digits>vf<digits>`: `pf`, one or more decimal digits, `vf`, one
or more decimal digits, and nothing before, between or after. -/
def IsPfVfName (s : String) : Prop :=
  ∃ d1 d2 : List Char, d1 ≠ [] ∧ d2 ≠ [] ∧ (∀ c ∈ d1, isDigit c = true) ∧
    (∀ c ∈ d2, isDigit c = true) ∧ s.data = 'p' :: 'f' :: d1 ++ 'v' :: 'f' :: d2

/-- The decimal representation of a natural number (Go `strconv.Itoa` on a non-negative
`int`). -/
def decimal (n : Nat) : String := Nat.repr n

/-! ## Lemmas on `GetUplinkRepresentor` -/

theorem isSwitchdev_iff (env : Env) (device : String) :
    isSwitchdev env device = true ↔ HasSwitchID env device := by
  unfold isSwitchdev HasSwitchID swIDFile
  cases h : env.ReadFile (env.Join [env.NetSysDir, device, netdevPhysSwitchID]) with
  | error e => simp [h]
  | ok id => simp [h]

theorem pfPhysPortNameReFind_iff (l : List Char) :
    pfPhysPortNameReFind l = true ↔
      ∃ (pre : List Char) (d : Char) (post : List Char),
        isDigit d = true ∧ l = pre ++ 'p' :: d :: post := by
  induction l with
  | nil => simp [pfPhysPortNameReFind]
  | cons c cs ih =>
    unfold pfPhysPortNameReFind
    rw [Bool.or_eq_true, ih]
    constructor
    · rintro (h | ⟨pre, d, post, hd, hcs⟩)
      · rw [Bool.and_eq_true] at h
        obtain ⟨hc, hm⟩ := h
        have hcp : c = 'p' := beq_iff_eq.mp hc
        cases cs with
        | nil => cases hm
        | cons d rest => exact ⟨[], d, rest, hm, by rw [hcp]; rfl⟩
      · exact ⟨c :: pre, d, post, hd, by rw [hcs]; rfl⟩
    · rintro ⟨pre, d, post, hd, hl⟩
      cases pre with
      | nil =>
        left
        rw [List.nil_append] at hl
        obtain ⟨hc, hcs⟩ := List.cons.inj hl
        rw [hc, hcs]
        simp [hd]
      | cons a rest =>
        right
        rw [List.cons_append] at hl
        exact ⟨rest, d, post, hd, (List.cons.inj hl).2⟩

/-- The matcher of `p\d+` accepts exactly the strings that contain `p` directly followed by a
digit. -/
theorem MatchString_iff (s : String) :
    pfPhysPortNameRe_MatchString s = true ↔ ContainsPDigit s :=
  pfPhysPortNameReFind_iff s.data

theorem uplinkAccepts_iff (env : Env) (device : String) :
    uplinkAccepts env device = true ↔ AcceptedByUplinkLoop env device := by
  unfold uplinkAccepts AcceptedByUplinkLoop
  rw [Bool.and_eq_true, isSwitchdev_iff]
  unfold getNetDevPhysPortName portNameFile
  cases h : env.ReadFile (env.Join [env.NetSysDir, device, netdevPhysPortName]) with
  | error e => simp [h]
  | ok raw => simp [h, MatchString_iff]

theorem uplinkLoop_cons (env : Env) (addr device : String) (devices : List String) :
    uplinkLoop env addr (device :: devices) =
      if uplinkAccepts env device then (device, none) else uplinkLoop env addr devices := by
  unfold uplinkAccepts
  rw [uplinkLoop]
  cases h1 : isSwitchdev env device with
  | false => simp
  | true =>
    cases h2 : getNetDevPhysPortName env device with
    | error e => simp
    | ok name => cases h3 : pfPhysPortNameRe_MatchString name <;> simp [h3]

theorem uplinkLoop_none (env : Env) (addr : String) (devices : List String)
    (h : ∀ x ∈ devices, uplinkAccepts env x = false) :
    uplinkLoop env addr devices = ("", some (.errorf ("uplink for " ++ addr ++ " not found"))) := by
  induction devices with
  | nil => rfl
  | cons d ds ih =>
    rw [uplinkLoop_cons, h d (List.mem_cons_self _ _)]
    simpa using ih (fun x hx => h x (List.mem_cons_of_mem _ hx))

theorem uplinkLoop_first (env : Env) (addr : String) (pre post : List String) (d : String)
    (hpre : ∀ x ∈ pre, uplinkAccepts env x = false) (hd : uplinkAccepts env d = true) :
    uplinkLoop env addr (pre ++ d :: post) = (d, none) := by
  induction pre with
  | nil => simp [uplinkLoop_cons, hd]
  | cons p ps ih =>
    rw [List.cons_append, uplinkLoop_cons, hpre p (List.mem_cons_self _ _)]
    simpa using ih (fun x hx => hpre x (List.mem_cons_of_mem _ hx))

/-- Every list with an element satisfying `p` splits at the first such element. -/
theorem exists_first_split {α : Type} (p : α → Bool) (l : List α) (h : ∃ x ∈ l, p x = true) :
    ∃ pre d post, l = pre ++ d :: post ∧ (∀ x ∈ pre, p x = false) ∧ p d = true := by
  induction l with
  | nil => simp at h
  | cons a as ih =>
    cases hpa : p a with
    | true => exact ⟨[], a, as, rfl, by simp, hpa⟩
    | false =>
      have h2 : ∃ x ∈ as, p x = true := by
        obtain ⟨x, hx, hpx⟩ := h
        rcases List.mem_cons.mp hx with rfl | hx
        · rw [hpa] at hpx; cases hpx
        · exact ⟨x, hx, hpx⟩
      obtain ⟨pre, d, post, hl, hpre, hd⟩ := ih h2
      refine ⟨a :: pre, d, post, by rw [hl]; rfl, ?_, hd⟩
      intro x hx
      rcases List.mem_cons.mp hx with rfl | hx
      · exact hpa
      · exact hpre x hx

theorem not_accepted_iff (env : Env) (x : String) :
    ¬ AcceptedByUplinkLoop env x ↔ uplinkAccepts env x = false := by
  rw [← uplinkAccepts_iff]; simp

theorem isUplinkPortName_iff (s : String) :
    IsUplinkPortName s ↔ isUplinkPortNameB s = true := by
  unfold IsUplinkPortName isUplinkPortNameB
  constructor
  · rintro ⟨ds, hne, hall, hdata⟩
    rw [hdata]
    simp only [beq_self_eq_true, Bool.true_and, Bool.and_eq_true, Bool.not_eq_true',
      List.isEmpty_eq_false, List.all_eq_true]
    exact ⟨hne, hall⟩
  · intro h
    cases hd : s.data with
    | nil => rw [hd] at h; cases h
    | cons c ds =>
      rw [hd] at h
      simp only [Bool.and_eq_true, beq_iff_eq, Bool.not_eq_true', List.isEmpty_eq_false,
        List.all_eq_true] at h
      obtain ⟨⟨hc, hne⟩, hall⟩ := h
      exact ⟨ds, hne, hall, by rw [hc]⟩

theorem survivesUplinkChecks_iff (env : Env) (device : String) :
    SurvivesUplinkChecks env device ↔ survivesUplinkChecksB env device = true := by
  unfold SurvivesUplinkChecks survivesUplinkChecksB
  rw [Bool.and_eq_true, isSwitchdev_iff]
  cases h : env.ReadFile (portNameFile env device) with
  | error e => simp
  | ok raw => simp [isUplinkPortName_iff]

/-- A name of the form `p<digits>` contains `p` directly followed by a digit. -/
theorem containsPDigit_of_uplinkPortName (s : String) (h : IsUplinkPortName s) :
    ContainsPDigit s := by
  obtain ⟨ds, hne, hall, hdata⟩ := h
  obtain ⟨d, rest, rfl⟩ := List.exists_cons_of_ne_nil hne
  exact ⟨[], d, rest, hall d (List.mem_cons_self _ _), by rw [hdata]; rfl⟩

/-- Every entry that survives the checks as the specification states them is accepted by the
loop of `GetUplinkRepresentor`; the converse fails (C4). -/
theorem accepted_of_survives (env : Env) (device : String)
    (h : SurvivesUplinkChecks env device) : AcceptedByUplinkLoop env device := by
  obtain ⟨hsw, hport⟩ := h
  refine ⟨hsw, ?_⟩
  rcases hport with he | ⟨raw, hraw, hname⟩
  · exact Or.inl he
  · exact Or.inr ⟨raw, hraw, containsPDigit_of_uplinkPortName _ hname⟩

/-! ## What `GetUplinkRepresentor` does on a successful listing -/

/-- When the listing succeeds and the loop accepts some listed entry, the listing splits at
the first accepted entry and `GetUplinkRepresentor` returns that entry with a nil error. -/
theorem GetUplinkRepresentor_first_accepted (env : Env) (vfPciAddress : String)
    (devices : List String)
    (hlist : env.ReadDir (env.Join [env.PciSysDir, vfPciAddress, "physfn/net"]) = .ok devices)
    (hex : ∃ x ∈ devices, AcceptedByUplinkLoop env x) :
    ∃ pre d post, devices = pre ++ d :: post ∧ (∀ x ∈ pre, ¬ AcceptedByUplinkLoop env x) ∧
      AcceptedByUplinkLoop env d ∧ GetUplinkRepresentor env vfPciAddress = (d, none) := by
  have hex2 : ∃ x ∈ devices, uplinkAccepts env x = true := by
    obtain ⟨x, hx, hs⟩ := hex
    exact ⟨x, hx, (uplinkAccepts_iff env x).mpr hs⟩
  obtain ⟨pre, d, post, hl, hpre, hd⟩ := exists_first_split (uplinkAccepts env) devices hex2
  refine ⟨pre, d, post, hl, fun x hx => (not_accepted_iff env x).mpr (hpre x hx),
    (uplinkAccepts_iff env d).mp hd, ?_⟩
  unfold GetUplinkRepresentor
  simp only [hlist, hl]
  exact uplinkLoop_first env vfPciAddress pre post d hpre hd

/-- When the listing succeeds, `GetUplinkRepresentor` fails exactly when the loop accepts no
listed entry, and then it returns the empty name and the error with message
`uplink for <vfPciAddress> not found`; so it does when no listed entry has a readable,
non-empty `phys_switch_id`. -/
theorem GetUplinkRepresentor_fails_iff_none_accepted (env : Env) (vfPciAddress : String)
    (devices : List String)
    (hlist : env.ReadDir (env.Join [env.PciSysDir, vfPciAddress, "physfn/net"]) = .ok devices) :
    ((GetUplinkRepresentor env vfPciAddress).2 ≠ none ↔
        ∀ x ∈ devices, ¬ AcceptedByUplinkLoop env x) ∧
      ((∀ x ∈ devices, ¬ AcceptedByUplinkLoop env x) →
        GetUplinkRepresentor env vfPciAddress =
          ("", some (.errorf ("uplink for " ++ vfPciAddress ++ " not found")))) ∧
      ((∀ x ∈ devices, ¬ HasSwitchID env x) →
        GetUplinkRepresentor env vfPciAddress =
          ("", some (.errorf ("uplink for " ++ vfPciAddress ++ " not found")))) := by
  have hloop : GetUplinkRepresentor env vfPciAddress = uplinkLoop env vfPciAddress devices := by
    unfold GetUplinkRepresentor
    simp only [hlist]
  have hnone : (∀ x ∈ devices, ¬ AcceptedByUplinkLoop env x) →
      GetUplinkRepresentor env vfPciAddress =
        ("", some (.errorf ("uplink for " ++ vfPciAddress ++ " not found"))) := by
    intro h
    rw [hloop]
    exact uplinkLoop_none env vfPciAddress devices
      (fun x hx => (not_accepted_iff env x).mp (h x hx))
  refine ⟨⟨?_, fun h => by rw [hnone h]; simp⟩, hnone, fun h => hnone (fun x hx hs => h x hx hs.1)⟩
  intro herr x hx hs
  have hex : ∃ y ∈ devices, uplinkAccepts env y = true :=
    ⟨x, hx, (uplinkAccepts_iff env x).mpr hs⟩
  obtain ⟨pre, d, post, hl, hpre, hd⟩ := exists_first_split (uplinkAccepts env) devices hex
  rw [hloop, hl, uplinkLoop_first env vfPciAddress pre post d hpre hd] at herr
  exact herr rfl

/-- The three uplink fixtures of the package tests: with port name `p0` the uplink `eth0` is
returned, without a `phys_port_name` file likewise, and with port name `invalid` the call
fails with the not-found error. -/
theorem GetUplinkRepresentor_test_fixtures :
    GetUplinkRepresentor (testEnv "p0" "0123" "0124") "0000:03:00.4" = ("eth0", none) ∧
      GetUplinkRepresentor
          (fakeEnv [("/sys/class/net/eth0/phys_switch_id", "111111")]
            [("/sys/bus/pci/devices/0000:03:00.4/physfn/net", ["eth0"])] [])
          "0000:03:00.4" = ("eth0", none) ∧
      GetUplinkRepresentor (testEnv "invalid" "0123" "0124") "0000:03:00.4" =
        ("", some (.errorf "uplink for 0000:03:00.4 not found")) := by
  decide

/-! ## Claims on `GetUplinkRepresentor` -/

/-- C1 (the code departs from the claim): the listing is `eth0`, `eth1`; `eth0` has a switch
id and the readable port name `p0s1`, which is not of the form `p<digits>`, so it does not
survive the port-name check; `eth1` (`p1`) is the first entry that survives both checks. Yet
`GetUplinkRepresentor` returns `eth0` without error: the pattern `p\d+` is not anchored. -/
theorem GetUplinkRepresentor_returns_before_first_survivor :
    splitPortEnv.ReadDir (splitPortEnv.Join [splitPortEnv.PciSysDir, "0000:03:00.4", "physfn/net"])
        = .ok ["eth0", "eth1"] ∧
      ¬ SurvivesUplinkChecks splitPortEnv "eth0" ∧
      SurvivesUplinkChecks splitPortEnv "eth1" ∧
      GetUplinkRepresentor splitPortEnv "0000:03:00.4" = ("eth0", none) := by
  refine ⟨rfl, ?_, ?_, by decide⟩
  · rw [survivesUplinkChecks_iff]; decide
  · rw [survivesUplinkChecks_iff]; decide

/-- C2 (the code departs from the claim): in the test fixture with the uplink port name
`p0s1` the listing succeeds and no listed entry survives both checks (`pf0vf0`, `pf0vf1` and
`p0s1` are readable and none is of the form `p<digits>`), yet `GetUplinkRepresentor` does not
fail: it returns `eth0` with a nil error instead of the not-found error. -/
theorem GetUplinkRepresentor_succeeds_without_survivor :
    (testEnv "p0s1" "0123" "0124").ReadDir
        ((testEnv "p0s1" "0123" "0124").Join
          [(testEnv "p0s1" "0123" "0124").PciSysDir, "0000:03:00.4", "physfn/net"])
        = .ok ["enp_0", "enp_1", "eth0"] ∧
      (∀ x ∈ ["enp_0", "enp_1", "eth0"], ¬ SurvivesUplinkChecks (testEnv "p0s1" "0123" "0124") x) ∧
      (GetUplinkRepresentor (testEnv "p0s1" "0123" "0124") "0000:03:00.4").2 = none ∧
      GetUplinkRepresentor (testEnv "p0s1" "0123" "0124") "0000:03:00.4" ≠
        ("", some (.errorf ("uplink for " ++ "0000:03:00.4" ++ " not found"))) := by
  refine ⟨rfl, ?_, by decide, by decide⟩
  have hall : ∀ x ∈ ["enp_0", "enp_1", "eth0"],
      survivesUplinkChecksB (testEnv "p0s1" "0123" "0124") x = false := by decide
  intro x hx hs
  rw [survivesUplinkChecks_iff, hall x hx] at hs
  cases hs

theorem string_append_data (a b : String) : (a ++ b).data = a.data ++ b.data := by
  cases a; cases b; rfl

/-- C3: when the listing of `<PciSysDir>/<address>/physfn/net` fails with error text `e`,
`GetUplinkRepresentor` returns the empty name and the error with message
`failed to lookup <vfPciAddress>: <e>`; the message starts with
`failed to lookup <vfPciAddress>`, differs from the not-found message, and the result is the
same in every environment in which that listing fails with the same text. -/
theorem GetUplinkRepresentor_lookup_failure (env : Env) (vfPciAddress e : String)
    (hlist : env.ReadDir (env.Join [env.PciSysDir, vfPciAddress, "physfn/net"]) = .error e) :
    GetUplinkRepresentor env vfPciAddress =
        ("", some (.errorf ("failed to lookup " ++ vfPciAddress ++ ": " ++ e))) ∧
      (∃ rest, "failed to lookup " ++ vfPciAddress ++ ": " ++ e =
        "failed to lookup " ++ vfPciAddress ++ rest) ∧
      "failed to lookup " ++ vfPciAddress ++ ": " ++ e ≠
        "uplink for " ++ vfPciAddress ++ " not found" ∧
      (∀ env2 : Env,
        env2.ReadDir (env2.Join [env2.PciSysDir, vfPciAddress, "physfn/net"]) = .error e →
        GetUplinkRepresentor env2 vfPciAddress = GetUplinkRepresentor env vfPciAddress) := by
  have hres : ∀ env1 : Env,
      env1.ReadDir (env1.Join [env1.PciSysDir, vfPciAddress, "physfn/net"]) = .error e →
      GetUplinkRepresentor env1 vfPciAddress =
        ("", some (.errorf ("failed to lookup " ++ vfPciAddress ++ ": " ++ e))) := by
    intro env1 h1
    unfold GetUplinkRepresentor
    simp only [h1]
  refine ⟨hres env hlist, ⟨": " ++ e, by simp [String.append_assoc]⟩, ?_,
    fun env2 h2 => by rw [hres env2 h2, hres env hlist]⟩
  intro h
  have h2 := congrArg String.data h
  simp [string_append_data] at h2

/-- C3 at the state of `TestGetUplinkRepresentorErrorMissingUplink`: an empty file system. -/
theorem GetUplinkRepresentor_lookup_failure_witness :
    GetUplinkRepresentor (fakeEnv [] [] []) "0000:03:00.4" =
        ("", some (.errorf ("failed to lookup " ++ "0000:03:00.4" ++ ": " ++
          "open /sys/bus/pci/devices/0000:03:00.4/physfn/net: file does not exist"))) ∧
      (∃ rest, "failed to lookup " ++ "0000:03:00.4" ++ ": " ++
          "open /sys/bus/pci/devices/0000:03:00.4/physfn/net: file does not exist" =
        "failed to lookup " ++ "0000:03:00.4" ++ rest) ∧
      "failed to lookup " ++ "0000:03:00.4" ++ ": " ++
          "open /sys/bus/pci/devices/0000:03:00.4/physfn/net: file does not exist" ≠
        "uplink for " ++ "0000:03:00.4" ++ " not found" ∧
      (∀ env2 : Env,
        env2.ReadDir (env2.Join [env2.PciSysDir, "0000:03:00.4", "physfn/net"]) =
          .error "open /sys/bus/pci/devices/0000:03:00.4/physfn/net: file does not exist" →
        GetUplinkRepresentor env2 "0000:03:00.4" =
          GetUplinkRepresentor (fakeEnv [] [] []) "0000:03:00.4") :=
  GetUplinkRepresentor_lookup_failure (fakeEnv [] [] []) "0000:03:00.4"
    "open /sys/bus/pci/devices/0000:03:00.4/physfn/net: file does not exist" rfl

/-- C4 (the code departs from the claim): in the test fixture with the uplink port name
`p0s1`, the kernel name of a split port, `GetUplinkRepresentor` returns `eth0` without error,
the `phys_port_name` of `eth0` is readable with trimmed content `p0s1`, and `p0s1` is not of the
form `p<digits>`: the pattern `p\d+` is not anchored, so a name that merely contains
`p<digit>` passes. -/
theorem GetUplinkRepresentor_accepts_unanchored_port_name :
    GetUplinkRepresentor (testEnv "p0s1" "0123" "0124") "0000:03:00.4" = ("eth0", none) ∧
      getNetDevPhysPortName (testEnv "p0s1" "0123" "0124") "eth0" = .ok "p0s1" ∧
      ¬ IsUplinkPortName "p0s1" := by
  refine ⟨by decide, rfl, ?_⟩
  rintro ⟨ds, -, hall, hds⟩
  have h : ds = ['0', 's', '1'] := by
    have h2 : ("p0s1" : String).data = ['p', '0', 's', '1'] := rfl
    rw [h2] at hds
    exact (List.cons.inj hds).2.symm
  have h3 := hall 's' (by rw [h]; decide)
  revert h3
  decide

/-! ## Lemmas on `GetVfRepresentor` -/

theorem vfRepBody_ret_name (env : Env) (uplink : String) (vfIndex : Int) (sw x d : String)
    (h : vfRepBody env uplink vfIndex sw x = .ret d) : d = x := by
  unfold vfRepBody at h
  simp only at h
  split at h
  · cases h
  · split at h
    · cases h
    · split at h
      · cases h
      · split at h
        · cases h
        · cases h
        · split at h
          · exact (Flow.ret.inj h).symm
          · cases h

theorem vfRepLoop_ok_mem (env : Env) (uplink : String) (vfIndex : Int) (sw : String)
    (devices : List String) (d : String)
    (h : vfRepLoop env uplink vfIndex sw devices = .returned (d, none)) :
    d ∈ devices ∧ vfRepBody env uplink vfIndex sw d = .ret d := by
  induction devices with
  | nil => simp [vfRepLoop] at h
  | cons x xs ih =>
    rw [vfRepLoop] at h
    cases hb : vfRepBody env uplink vfIndex sw x with
    | next =>
      rw [hb] at h
      obtain ⟨hm, hr⟩ := ih h
      exact ⟨List.mem_cons_of_mem _ hm, hr⟩
    | ret name =>
      rw [hb] at h
      have hname : name = d := by
        have := Run.returned.inj h
        exact (Prod.mk.inj this).1
      have hx : name = x := vfRepBody_ret_name env uplink vfIndex sw x name hb
      subst hname
      subst hx
      exact ⟨List.mem_cons_self _ _, hb⟩
    | panic => rw [hb] at h; cases h

theorem vfRepLoop_err (env : Env) (uplink : String) (vfIndex : Int) (sw : String)
    (devices : List String) (name : String) (err : GoError)
    (h : vfRepLoop env uplink vfIndex sw devices = .returned (name, some err)) :
    name = "" ∧ err = .errorf ("failed to find VF representor for uplink " ++ uplink) := by
  induction devices with
  | nil =>
    rw [vfRepLoop] at h
    have := Prod.mk.inj (Run.returned.inj h)
    exact ⟨this.1.symm, (Option.some.inj this.2).symm⟩
  | cons x xs ih =>
    rw [vfRepLoop] at h
    cases hb : vfRepBody env uplink vfIndex sw x with
    | next => rw [hb] at h; exact ih h
    | ret n => rw [hb] at h; cases h
    | panic => rw [hb] at h; cases h

/-- What the loop body has checked when it returns `d`. -/
theorem vfRepBody_ret_checks (env : Env) (uplink : String) (vfIndex : Int) (sw d : String)
    (h : vfRepBody env uplink vfIndex sw d = .ret d) :
    env.ReadFile (env.Join [env.Join [env.NetSysDir, d], netdevPhysSwitchID]) = .ok sw ∧
      ∃ port, getNetDevPhysPortName env d = .ok port ∧
        pfIndexBlock env uplink (parsePortName port).1 = .returned true ∧
        (parsePortName port).2.1 = vfIndex := by
  unfold vfRepBody at h
  simp only at h
  split at h
  · cases h
  · rename_i deviceSwID hread
    split at h
    · cases h
    · rename_i hsw
      have hsw2 : deviceSwID = sw := by simpa using hsw
      split at h
      · cases h
      · rename_i port hport
        refine ⟨by rw [hread, hsw2], port, hport, ?_⟩
        split at h
        · cases h
        · cases h
        · rename_i hblock
          split at h
          · rename_i hvf
            exact ⟨hblock, hvf⟩
          · cases h

/-! ## Claims on `GetVfRepresentor` -/

/-- C6: if the uplink's `phys_switch_id` cannot be read or is empty, `GetVfRepresentor` returns
the empty name and the error with message `cant get uplink <uplink> switch id`, whatever else
the environment holds; if it is readable and non-empty, no returned error is that one: a
returned error is the listing error of `<NetSysDir>/<uplink>/subsystem` handed through, or the
not-found error, whose message differs. -/
theorem GetVfRepresentor_switch_id_prereq (env : Env) (uplink : String) (vfIndex : Int) :
    ((¬ HasSwitchID env uplink) →
        GetVfRepresentor env uplink vfIndex =
          .returned ("", some (.errorf ("cant get uplink " ++ uplink ++ " switch id")))) ∧
      (HasSwitchID env uplink → ∀ name err,
        GetVfRepresentor env uplink vfIndex = .returned (name, some err) →
          err ≠ .errorf ("cant get uplink " ++ uplink ++ " switch id") ∧
          ((∃ e, env.ReadDir (env.Join [env.NetSysDir, uplink, "subsystem"]) = .error e ∧
              err = .fs e) ∨
            err = .errorf ("failed to find VF representor for uplink " ++ uplink)) ∧
          "failed to find VF representor for uplink " ++ uplink ≠
            "cant get uplink " ++ uplink ++ " switch id") := by
  have hne : "failed to find VF representor for uplink " ++ uplink ≠
      "cant get uplink " ++ uplink ++ " switch id" := by
    intro h
    have h2 := congrArg String.data h
    simp [string_append_data] at h2
  constructor
  · intro hno
    unfold HasSwitchID swIDFile at hno
    unfold GetVfRepresentor
    cases hread : env.ReadFile (env.Join [env.NetSysDir, uplink, netdevPhysSwitchID]) with
    | error e => simp only [hread]
    | ok id =>
      have hid : id = "" := by
        by_contra hne2
        exact hno ⟨id, hread, hne2⟩
      simp only [hread, hid, if_true]
  · rintro ⟨id, hread, hid⟩ name err hret
    unfold swIDFile at hread
    unfold GetVfRepresentor at hret
    simp only [hread, hid, if_false] at hret
    cases hdir : env.ReadDir (env.Join [env.NetSysDir, uplink, "subsystem"]) with
    | error e =>
      rw [hdir] at hret
      have h2 := (Prod.mk.inj (Run.returned.inj hret)).2
      have h3 : err = .fs e := (Option.some.inj h2).symm
      refine ⟨?_, Or.inl ⟨e, rfl, h3⟩, hne⟩
      rw [h3]
      intro h4
      cases h4
    | ok devices =>
      rw [hdir] at hret
      have h3 := (vfRepLoop_err env uplink vfIndex id devices name err hret).2
      refine ⟨?_, Or.inr h3, hne⟩
      rw [h3]
      intro h4
      exact hne (GoError.errorf.inj h4)

/-- C6 at two states: the empty file system, where the uplink has no `phys_switch_id`, and the
test fixture, where it has one. -/
theorem GetVfRepresentor_switch_id_prereq_witness :
    GetVfRepresentor (fakeEnv [] [] []) "eth0" 0 =
        .returned ("", some (.errorf ("cant get uplink " ++ "eth0" ++ " switch id"))) ∧
      (∀ name err,
        GetVfRepresentor (testEnv "p0" "111111" "111111") "eth0" 5 = .returned (name, some err) →
          err ≠ .errorf ("cant get uplink " ++ "eth0" ++ " switch id") ∧
          ((∃ e, (testEnv "p0" "111111" "111111").ReadDir
                ((testEnv "p0" "111111" "111111").Join
                  [(testEnv "p0" "111111" "111111").NetSysDir, "eth0", "subsystem"]) = .error e ∧
              err = .fs e) ∨
            err = .errorf ("failed to find VF representor for uplink " ++ "eth0")) ∧
          "failed to find VF representor for uplink " ++ "eth0" ≠
            "cant get uplink " ++ "eth0" ++ " switch id") :=
  ⟨(GetVfRepresentor_switch_id_prereq (fakeEnv [] [] []) "eth0" 0).1
      (by rintro ⟨id, hread, -⟩; cases hread),
   (GetVfRepresentor_switch_id_prereq (testEnv "p0" "111111" "111111") "eth0" 5).2
      ⟨"111111", rfl, by decide⟩⟩

/-- C5 (the code departs from the claim): with target index `9223372036854775807 ≥ 0` the
sibling `enp_2` is returned without error although its port name does not parse:
`parsePortName` reports a range error for it, which `GetVfRepresentor` discards, and the
clamped value it returns beside the error equals the target. No sibling of that state passes
step (c), so the claim asks for the not-found error. -/
theorem GetVfRepresentor_returns_unparsed_sibling_nonneg :
    (0 : Int) ≤ 9223372036854775807 ∧
      GetVfRepresentor overflowEnv "eth0" 9223372036854775807 = .returned ("enp_2", none) ∧
      getNetDevPhysPortName overflowEnv "enp_2" = .ok "pf0vf9223372036854775808" ∧
      parsePortName "pf0vf9223372036854775808" =
        (0, 9223372036854775807, some (.numRange "9223372036854775808")) ∧
      getNetDevPhysPortName overflowEnv "eth0" = .ok "p0" ∧
      (parsePortName "p0").2.2 ≠ none := by
  decide

/-- C7 (the code departs from the claim): in the test fixture, with `vfIndex = -1`, the uplink
`eth0` itself is returned without error although `parsePortName` fails on its port name `p0`:
the error is discarded and the value `-1` that `parsePortName` returns beside it equals the
target. -/
theorem GetVfRepresentor_returns_unparsed_sibling :
    GetVfRepresentor (testEnv "p0" "111111" "111111") "eth0" (-1) = .returned ("eth0", none) ∧
      getNetDevPhysPortName (testEnv "p0" "111111" "111111") "eth0" = .ok "p0" ∧
      parsePortName "p0" = (-1, -1, some (.errorf "failed to parse physPortName p0")) := by
  decide

/-! ### The PCI function check -/

theorem parseUintLoop_single (c : Char) (n : Nat) (h : parseUintLoop 0 [c] = .value n) :
    isDigit c = true ∧ n = c.toNat - 48 := by
  unfold parseUintLoop at h
  cases hd : isDigit c with
  | false => simp [hd] at h
  | true =>
    simp only [hd, Bool.not_true] at h
    have h57 : c.toNat ≤ 57 := by
      unfold isDigit at hd
      simp only [Bool.and_eq_true, decide_eq_true_eq] at hd
      exact hd.2
    have hc : ¬ (0 ≥ uintCutoff) := by decide
    have hm : ¬ (0 * 10 + (c.toNat - 48) > uintMax) := by
      have : uintMax = 18446744073709551615 := by decide
      omega
    simp only [hc, hm, if_false, Bool.false_eq_true, parseUintLoop] at h
    refine ⟨rfl, ?_⟩
    have := UintResult.value.inj h
    omega

theorem Atoi_singleton (c : Char) (v : Int) (h : Atoi (String.singleton c) = (v, none)) :
    isDigit c = true ∧ v = (c.toNat : Int) - 48 := by
  have hdata : (String.singleton c).data = [c] := rfl
  unfold Atoi at h
  rw [hdata] at h
  simp only at h
  by_cases hs : (c == '+' || c == '-') = true
  · simp [hs, parseUint] at h
  · have hs2 : (c == '+' || c == '-') = false := by simpa using hs
    have hneg : (c == '-') = false := by
      cases hm : (c == '-') with
      | false => rfl
      | true => rw [hm] at hs2; simp at hs2
    have hplus : (c == '+') = false := by
      cases hm : (c == '+') with
      | false => rfl
      | true => rw [hm] at hs2; simp at hs2
    simp only [hplus, hneg, Bool.or_false, Bool.false_eq_true, if_false, parseUint,
      List.cons_ne_nil c []] at h
    cases hp : parseUintLoop 0 [c] with
    | invalid => rw [hp] at h; simp at h
    | overflow => rw [hp] at h; simp at h
    | value n =>
      rw [hp] at h
      obtain ⟨hd, hn⟩ := parseUintLoop_single c n hp
      have h57 : c.toNat ≤ 57 := by
        unfold isDigit at hd
        simp only [Bool.and_eq_true, decide_eq_true_eq] at hd
        exact hd.2
      have h48 : 48 ≤ c.toNat := by
        unfold isDigit at hd
        simp only [Bool.and_eq_true, decide_eq_true_eq] at hd
        exact hd.1
      have hlt : ¬ (9223372036854775808 ≤ n) := by omega
      simp only [Bool.not_false, Bool.true_and, Bool.false_and, Bool.false_eq_true, if_false,
        ge_iff_le, Nat.reducePow, decide_eq_true_eq] at h
      rw [if_neg hlt] at h
      have hv : (n : Int) = v := (Prod.mk.inj h).1
      refine ⟨hd, ?_⟩
      omega

theorem continuation_byte_toNat : ∀ k, k < 64 → (Char.ofNat (128 + k)).toNat = 128 + k := by
  decide

theorem lastByteString_Atoi (addr last : String) (v : Int)
    (hl : lastByteString addr = some last) (ha : Atoi last = (v, none)) :
    ∃ c, addr.data.getLast? = some c ∧ isDigit c = true ∧
      Atoi (String.singleton c) = (v, none) := by
  unfold lastByteString at hl
  cases hg : addr.data.getLast? with
  | none => rw [hg] at hl; cases hl
  | some c =>
    rw [hg] at hl
    have hl2 := Option.some.inj hl
    by_cases hc : c.toNat < 128
    · rw [if_pos hc] at hl2
      rw [← hl2] at ha
      exact ⟨c, rfl, (Atoi_singleton c v ha).1, ha⟩
    · rw [if_neg hc] at hl2
      rw [← hl2] at ha
      have hd := (Atoi_singleton _ v ha).1
      unfold isDigit at hd
      simp only [Bool.and_eq_true, decide_eq_true_eq] at hd
      rw [continuation_byte_toNat (c.toNat % 64) (Nat.mod_lt _ (by decide))] at hd
      omega

theorem pfIndexBlock_present (env : Env) (uplink : String) (pfRepIndex : Int)
    (hp : pfRepIndex ≠ -1) (h : pfIndexBlock env uplink pfRepIndex = .returned true) :
    ∃ addr c, env.getPCIFromDeviceName uplink = .ok addr ∧ addr.data.getLast? = some c ∧
      isDigit c = true ∧ Atoi (String.singleton c) = (pfRepIndex, none) := by
  unfold pfIndexBlock at h
  rw [if_pos hp] at h
  cases hpci : env.getPCIFromDeviceName uplink with
  | error e => rw [hpci] at h; cases h
  | ok addr =>
    rw [hpci] at h
    simp only at h
    cases hl : lastByteString addr with
    | none => rw [hl] at h; cases h
    | some last =>
      rw [hl] at h
      simp only at h
      by_cases hcond : pfRepIndex ≠ (Atoi last).1 ∨ (Atoi last).2 ≠ none
      · rw [if_pos hcond] at h; cases h
      · have hc1 : pfRepIndex = (Atoi last).1 := by
          by_contra hne; exact hcond (Or.inl hne)
        have hc2 : (Atoi last).2 = none := by
          by_contra hne; exact hcond (Or.inr hne)
        have ha : Atoi last = (pfRepIndex, none) := by
          rw [hc1]; exact Prod.ext rfl hc2
        obtain ⟨c, hg, hd, hat⟩ := lastByteString_Atoi addr last pfRepIndex hl ha
        exact ⟨addr, c, rfl, hg, hd, hat⟩

/-- C8: if `GetVfRepresentor` returns `d` without error then the port name of `d` is readable,
and if the `pfRepIndex` that `parsePortName` yields for it is present (not `-1`), the uplink's
PCI address was resolved, its last character is a decimal digit, and `Atoi` of that character
is that `pfRepIndex` with a nil error. So a sibling whose present `pfRepIndex` is not the
uplink's PCI function number is never returned. -/
theorem GetVfRepresentor_pfIndex_is_uplink_function (env : Env) (uplink : String)
    (vfIndex : Int) (d : String)
    (h : GetVfRepresentor env uplink vfIndex = .returned (d, none)) :
    (∃ port, getNetDevPhysPortName env d = .ok port ∧
        ((parsePortName port).1 ≠ -1 →
          ∃ addr c, env.getPCIFromDeviceName uplink = .ok addr ∧
            addr.data.getLast? = some c ∧ isDigit c = true ∧
            Atoi (String.singleton c) = ((parsePortName port).1, none))) ∧
      (∀ port, getNetDevPhysPortName env d = .ok port → (parsePortName port).1 ≠ -1 →
        ¬ (∀ addr c, env.getPCIFromDeviceName uplink = .ok addr →
            addr.data.getLast? = some c →
            Atoi (String.singleton c) ≠ ((parsePortName port).1, none))) := by
  have hmain : ∃ port, getNetDevPhysPortName env d = .ok port ∧
      ((parsePortName port).1 ≠ -1 →
        ∃ addr c, env.getPCIFromDeviceName uplink = .ok addr ∧
          addr.data.getLast? = some c ∧ isDigit c = true ∧
          Atoi (String.singleton c) = ((parsePortName port).1, none)) := by
    unfold GetVfRepresentor at h
    simp only at h
    split at h
    · cases h
    · rename_i sw hread
      split at h
      · cases h
      · split at h
        · cases h
        · rename_i devices hdir
          obtain ⟨-, hbody⟩ := vfRepLoop_ok_mem env uplink vfIndex sw devices d h
          obtain ⟨-, port, hport, hblock, -⟩ := vfRepBody_ret_checks env uplink vfIndex sw d hbody
          exact ⟨port, hport, fun hp => pfIndexBlock_present env uplink _ hp hblock⟩
  refine ⟨hmain, ?_⟩
  intro port hport hp hall
  obtain ⟨port2, hport2, hpf⟩ := hmain
  rw [hport] at hport2
  have hpp : port = port2 := Except.ok.inj hport2
  subst hpp
  obtain ⟨addr, c, hpci, hg, -, hat⟩ := hpf hp
  exact hall addr c hpci hg hat

/-- C8 at the fixture of the specification: `eth0` at PCI function 0, target 1. -/
theorem GetVfRepresentor_pfIndex_is_uplink_function_witness :
    (∃ port, getNetDevPhysPortName (testEnv "p0" "111111" "111111") "enp_1" = .ok port ∧
        ((parsePortName port).1 ≠ -1 →
          ∃ addr c, (testEnv "p0" "111111" "111111").getPCIFromDeviceName "eth0" = .ok addr ∧
            addr.data.getLast? = some c ∧ isDigit c = true ∧
            Atoi (String.singleton c) = ((parsePortName port).1, none))) ∧
      (∀ port, getNetDevPhysPortName (testEnv "p0" "111111" "111111") "enp_1" = .ok port →
        (parsePortName port).1 ≠ -1 →
        ¬ (∀ addr c, (testEnv "p0" "111111" "111111").getPCIFromDeviceName "eth0" = .ok addr →
            addr.data.getLast? = some c →
            Atoi (String.singleton c) ≠ ((parsePortName port).1, none))) :=
  GetVfRepresentor_pfIndex_is_uplink_function (testEnv "p0" "111111" "111111") "eth0" 1 "enp_1"
    (by decide)

/-! ## Decimal numerals -/

theorem toDigitsCore_eq (fuel : Nat) : ∀ n ds, n < fuel →
    Nat.toDigitsCore 10 fuel n ds = Nat.toDigits 10 n ++ ds := by
  induction fuel using Nat.strong_induction_on with
  | _ fuel ih =>
    intro n ds hn
    cases fuel with
    | zero => omega
    | succ f =>
      unfold Nat.toDigits
      simp only [Nat.toDigitsCore]
      by_cases h0 : n / 10 = 0
      · simp [h0]
      · simp only [h0, if_false]
        have hlt : n / 10 < n := by omega
        rw [ih f (Nat.lt_succ_self f) (n / 10) _ (by omega)]
        rw [ih n (by omega) (n / 10) _ hlt]
        simp

theorem toDigits_small (n : Nat) (h : n < 10) : Nat.toDigits 10 n = [Nat.digitChar n] := by
  unfold Nat.toDigits
  simp only [Nat.toDigitsCore]
  have h0 : n / 10 = 0 := by omega
  have hm : n % 10 = n := by omega
  simp [h0, hm]

theorem toDigits_step (n : Nat) (h : 10 ≤ n) :
    Nat.toDigits 10 n = Nat.toDigits 10 (n / 10) ++ [Nat.digitChar (n % 10)] := by
  have h0 : n / 10 ≠ 0 := by omega
  have hlt : n / 10 < n := by omega
  conv => lhs; unfold Nat.toDigits
  simp only [Nat.toDigitsCore, h0, if_false]
  exact toDigitsCore_eq n (n / 10) _ hlt

theorem digitChar_digit : ∀ k, k < 10 →
    isDigit (Nat.digitChar k) = true ∧ (Nat.digitChar k).toNat - 48 = k := by
  decide

theorem toDigits_all_digit (n : Nat) : ∀ c ∈ Nat.toDigits 10 n, isDigit c = true := by
  induction n using Nat.strong_induction_on with
  | _ n ih =>
    by_cases h : n < 10
    · rw [toDigits_small n h]
      intro c hc
      rw [List.mem_singleton] at hc
      rw [hc]
      exact (digitChar_digit n h).1
    · rw [toDigits_step n (by omega)]
      intro c hc
      rcases List.mem_append.mp hc with hc | hc
      · exact ih (n / 10) (by omega) c hc
      · rw [List.mem_singleton] at hc
        rw [hc]
        exact (digitChar_digit (n % 10) (Nat.mod_lt _ (by decide))).1

theorem toDigits_ne_nil (n : Nat) : Nat.toDigits 10 n ≠ [] := by
  by_cases h : n < 10
  · rw [toDigits_small n h]; simp
  · rw [toDigits_step n (by omega)]; simp

theorem parseUintLoop_cons (n : Nat) (c : Char) (cs : List Char) :
    parseUintLoop n (c :: cs) =
      if !isDigit c then .invalid
      else if n ≥ uintCutoff then .overflow
      else if n * 10 + (c.toNat - 48) > uintMax then .overflow
      else parseUintLoop (n * 10 + (c.toNat - 48)) cs := by
  rw [parseUintLoop]

theorem parseUintLoop_append (xs ys : List Char) : ∀ acc m,
    parseUintLoop acc xs = .value m → parseUintLoop acc (xs ++ ys) = parseUintLoop m ys := by
  induction xs with
  | nil =>
    intro acc m h
    simp only [parseUintLoop] at h
    rw [UintResult.value.inj h]
    rfl
  | cons x xs ih =>
    intro acc m h
    rw [List.cons_append, parseUintLoop_cons]
    rw [parseUintLoop_cons] at h
    by_cases hd : (!isDigit x) = true
    · rw [if_pos hd] at h; cases h
    · rw [if_neg hd] at h ⊢
      by_cases hc : acc ≥ uintCutoff
      · rw [if_pos hc] at h; cases h
      · rw [if_neg hc] at h ⊢
        by_cases hm : acc * 10 + (x.toNat - 48) > uintMax
        · rw [if_pos hm] at h; cases h
        · rw [if_neg hm] at h ⊢
          exact ih _ _ h

theorem parseUintLoop_digit (acc : Nat) (c : Char) (hd : isDigit c = true)
    (hacc : acc * 10 + (c.toNat - 48) ≤ uintMax) :
    parseUintLoop acc [c] = .value (acc * 10 + (c.toNat - 48)) := by
  have hmax : uintMax = 18446744073709551615 := by decide
  have hcut : uintCutoff = 1844674407370955162 := by decide
  have h1 : ¬ ((!isDigit c) = true) := by simp [hd]
  have h2 : ¬ (acc ≥ uintCutoff) := by omega
  have h3 : ¬ (acc * 10 + (c.toNat - 48) > uintMax) := by omega
  rw [parseUintLoop_cons, if_neg h1, if_neg h2, if_neg h3, parseUintLoop]

theorem parseUintLoop_toDigits (n : Nat) (hn : n ≤ uintMax) :
    parseUintLoop 0 (Nat.toDigits 10 n) = .value n := by
  induction n using Nat.strong_induction_on with
  | _ n ih =>
    by_cases h : n < 10
    · rw [toDigits_small n h]
      obtain ⟨hd, hv⟩ := digitChar_digit n h
      rw [parseUintLoop_digit 0 _ hd (by omega), hv]
      simp
    · rw [toDigits_step n (by omega)]
      have hmax : uintMax = 18446744073709551615 := by decide
      rw [parseUintLoop_append _ _ 0 (n / 10) (ih (n / 10) (by omega) (by omega))]
      obtain ⟨hd, hv⟩ := digitChar_digit (n % 10) (Nat.mod_lt _ (by decide))
      rw [parseUintLoop_digit _ _ hd (by omega), hv]
      congr 1
      omega

/-! ## Trimming a padded string -/

theorem dropWhile_append_all {α : Type} (p : α → Bool) (pre l : List α)
    (h : ∀ c ∈ pre, p c = true) : (pre ++ l).dropWhile p = l.dropWhile p := by
  induction pre with
  | nil => rfl
  | cons a as ih =>
    rw [List.cons_append, List.dropWhile_cons, if_pos (h a (List.mem_cons_self _ _))]
    exact ih (fun c hc => h c (List.mem_cons_of_mem _ hc))

theorem dropWhile_of_head_neg {α : Type} (p : α → Bool) (l : List α)
    (h : ∀ c ∈ l, p c = false) : l.dropWhile p = l := by
  cases l with
  | nil => rfl
  | cons a as =>
    rw [List.dropWhile_cons, if_neg]
    rw [h a (List.mem_cons_self _ _)]
    simp

theorem trimSpaceChars_pad (pre core post : List Char)
    (hpre : ∀ c ∈ pre, isSpace c = true) (hpost : ∀ c ∈ post, isSpace c = true)
    (hcore : ∀ c ∈ core, isSpace c = false) :
    trimSpaceChars (pre ++ core ++ post) = core := by
  unfold trimSpaceChars
  by_cases hnil : core = []
  · subst hnil
    rw [List.append_nil, dropWhile_append_all isSpace pre post hpre]
    have h1 : post.dropWhile isSpace = [] := by
      have := dropWhile_append_all isSpace post [] hpost
      simpa using this
    rw [h1]
    rfl
  · obtain ⟨a, as, rfl⟩ := List.exists_cons_of_ne_nil hnil
    rw [List.append_assoc, dropWhile_append_all isSpace pre _ hpre]
    have ha : isSpace a = false := hcore a (List.mem_cons_self _ _)
    rw [List.cons_append, List.dropWhile_cons, if_neg (by rw [ha]; simp)]
    unfold List.rdropWhile
    rw [← List.cons_append, List.reverse_append,
      dropWhile_append_all isSpace post.reverse _
        (fun c hc => hpost c (List.mem_reverse.mp hc)),
      dropWhile_of_head_neg isSpace _ (fun c hc => hcore c (List.mem_reverse.mp hc)),
      List.reverse_reverse]

theorem TrimSpace_pad (pre post : List Char) (core : String)
    (hpre : ∀ c ∈ pre, isSpace c = true) (hpost : ∀ c ∈ post, isSpace c = true)
    (hcore : ∀ c ∈ core.data, isSpace c = false) :
    TrimSpace (String.mk pre ++ core ++ String.mk post) = core := by
  unfold TrimSpace
  rw [string_append_data, string_append_data]
  simp only
  rw [trimSpaceChars_pad pre core.data post hpre hpost hcore]

theorem isDigit_not_space (c : Char) (h : isDigit c = true) : isSpace c = false := by
  unfold isDigit at h
  simp only [Bool.and_eq_true, decide_eq_true_eq] at h
  unfold isSpace
  simp only [Bool.or_eq_false_iff, Bool.and_eq_false_imp, decide_eq_true_eq,
    decide_eq_false_iff_not, beq_eq_false_iff_ne, ne_eq]
  omega

theorem decimal_data (n : Nat) : (decimal n).data = Nat.toDigits 10 n := rfl

/-! ## `Atoi` on a decimal numeral -/

theorem Atoi_decimal (n : Nat) (hn : n < 2 ^ 63) : Atoi (decimal n) = ((n : Int), none) := by
  have hne := toDigits_ne_nil n
  obtain ⟨c, cs, hcs⟩ := List.exists_cons_of_ne_nil hne
  have hd : isDigit c = true := toDigits_all_digit n c (by rw [hcs]; exact List.mem_cons_self _ _)
  have hplus : (c == '+') = false := by
    rw [beq_eq_false_iff_ne]; rintro rfl; revert hd; decide
  have hminus : (c == '-') = false := by
    rw [beq_eq_false_iff_ne]; rintro rfl; revert hd; decide
  have hmax : uintMax = 18446744073709551615 := by decide
  have hloop := parseUintLoop_toDigits n (by omega)
  unfold Atoi
  rw [decimal_data, hcs]
  simp only [hplus, hminus, Bool.or_false, Bool.false_eq_true, if_false, parseUint,
    List.cons_ne_nil c cs]
  rw [← hcs, hloop]
  have hlt : ¬ (9223372036854775808 ≤ n) := by omega
  simp only [Bool.not_false, Bool.true_and, Bool.false_and, Bool.false_eq_true, if_false,
    ge_iff_le, Nat.reducePow, decide_eq_true_eq]
  rw [if_neg hlt]

/-! ## Claims on `parsePortName` -/

/-- C9: for every natural number `n` below `2^63` (the non-negative values of a Go `int`) and
every padding of white-space characters before and after, `parsePortName` applied to the
padded decimal representation of `n` returns `pfRepIndex = -1`, `vfRepIndex = n` and a nil
error. -/
theorem parsePortName_legacy (n : Nat) (hn : n < 2 ^ 63) (pre post : List Char)
    (hpre : ∀ c ∈ pre, isSpace c = true) (hpost : ∀ c ∈ post, isSpace c = true) :
    parsePortName (String.mk pre ++ decimal n ++ String.mk post) = (-1, (n : Int), none) := by
  have htrim : TrimSpace (String.mk pre ++ decimal n ++ String.mk post) = decimal n :=
    TrimSpace_pad pre post (decimal n) hpre hpost
      (fun c hc => isDigit_not_space c (toDigits_all_digit n c hc))
  unfold parsePortName
  simp only [htrim, Atoi_decimal n hn]

/-- C9 at `n = 5` with a leading blank and tab and a trailing newline. -/
theorem parsePortName_legacy_witness :
    parsePortName (String.mk [' ', '\t'] ++ decimal 5 ++ String.mk ['\n']) = (-1, ((5 : Nat) : Int), none) :=
  parsePortName_legacy 5 (by decide) [' ', '\t'] ['\n'] (by decide) (by decide)

theorem takeWhile_append_stop {α : Type} (p : α → Bool) (l r : List α) (x : α)
    (hl : ∀ c ∈ l, p c = true) (hx : p x = false) :
    (l ++ x :: r).takeWhile p = l ∧ (l ++ x :: r).dropWhile p = x :: r := by
  induction l with
  | nil => simp [List.takeWhile, List.dropWhile, hx]
  | cons a as ih =>
    have ha := hl a (List.mem_cons_self _ _)
    have ih2 := ih (fun c hc => hl c (List.mem_cons_of_mem _ hc))
    simp [List.takeWhile, List.dropWhile, ha, ih2.1, ih2.2]

theorem takeWhile_all {α : Type} (p : α → Bool) (l : List α) (hl : ∀ c ∈ l, p c = true) :
    l.takeWhile p = l := by
  induction l with
  | nil => rfl
  | cons a as ih =>
    simp [List.takeWhile, hl a (List.mem_cons_self _ _),
      ih (fun c hc => hl c (List.mem_cons_of_mem _ hc))]

theorem physPortReMatchAt_pfvf (da db : List Char) (hda : ∀ c ∈ da, isDigit c = true)
    (hdb : ∀ c ∈ db, isDigit c = true) (ha : da ≠ []) (hb : db ≠ []) :
    physPortReMatchAt ('p' :: 'f' :: (da ++ 'v' :: 'f' :: db)) =
      some ('p' :: 'f' :: da ++ 'v' :: 'f' :: db, da, db) := by
  have hv : isDigit 'v' = false := by decide
  obtain ⟨ht, hdrop⟩ := takeWhile_append_stop isDigit da ('f' :: db) 'v' hda hv
  unfold physPortReMatchAt
  simp only [ht, hdrop, takeWhile_all isDigit db hdb]
  rw [if_neg]
  rintro (h | h)
  · exact ha h
  · exact hb h

/-- C10: for all natural numbers `a` and `b` below `2^63` and every padding of white-space
characters before and after, `parsePortName` applied to the padded string
`pf<decimal a>vf<decimal b>` returns `pfRepIndex = a`, `vfRepIndex = b` and a nil error. -/
theorem parsePortName_pfvf (a b : Nat) (ha : a < 2 ^ 63) (hb : b < 2 ^ 63)
    (pre post : List Char)
    (hpre : ∀ c ∈ pre, isSpace c = true) (hpost : ∀ c ∈ post, isSpace c = true) :
    parsePortName (String.mk pre ++ ("pf" ++ decimal a ++ "vf" ++ decimal b) ++ String.mk post)
      = ((a : Int), (b : Int), none) := by
  have hdata : ("pf" ++ decimal a ++ "vf" ++ decimal b).data =
      'p' :: 'f' :: (Nat.toDigits 10 a ++ 'v' :: 'f' :: Nat.toDigits 10 b) := by
    simp only [string_append_data, decimal_data]
    simp
  have hcore : ∀ c ∈ ("pf" ++ decimal a ++ "vf" ++ decimal b).data, isSpace c = false := by
    intro c hc
    rw [hdata] at hc
    simp only [List.mem_cons, List.mem_append] at hc
    rcases hc with rfl | rfl | hc | rfl | rfl | hc
    · decide
    · decide
    · exact isDigit_not_space c (toDigits_all_digit a c hc)
    · decide
    · decide
    · exact isDigit_not_space c (toDigits_all_digit b c hc)
  have htrim := TrimSpace_pad pre post ("pf" ++ decimal a ++ "vf" ++ decimal b) hpre hpost hcore
  have hatoi : ∃ v e, Atoi ("pf" ++ decimal a ++ "vf" ++ decimal b) = (v, some e) := by
    unfold Atoi
    rw [hdata]
    exact ⟨_, _, rfl⟩
  obtain ⟨v, e, hve⟩ := hatoi
  have hfind : physPortRe_FindStringSubmatch ("pf" ++ decimal a ++ "vf" ++ decimal b) =
      [String.mk ('p' :: 'f' :: Nat.toDigits 10 a ++ 'v' :: 'f' :: Nat.toDigits 10 b),
        decimal a, decimal b] := by
    unfold physPortRe_FindStringSubmatch
    rw [hdata]
    unfold physPortReFind
    rw [physPortReMatchAt_pfvf _ _ (toDigits_all_digit a) (toDigits_all_digit b)
      (toDigits_ne_nil a) (toDigits_ne_nil b)]
    rfl
  unfold parsePortName
  simp only [htrim, hve, hfind, Atoi_decimal a ha, Atoi_decimal b hb]

/-- C10 at `pf0vf3` with a leading blank and a trailing newline. -/
theorem parsePortName_pfvf_witness :
    parsePortName (String.mk [' '] ++ ("pf" ++ decimal 0 ++ "vf" ++ decimal 3) ++ String.mk ['\n'])
      = (((0 : Nat) : Int), ((3 : Nat) : Int), none) :=
  parsePortName_pfvf 0 3 (by decide) (by decide) [' '] ['\n'] (by decide) (by decide)

/-! ## What a failed parse returns -/

theorem physPortReMatchAt_groups (cs w g1 g2 : List Char)
    (h : physPortReMatchAt cs = some (w, g1, g2)) :
    g1 ≠ [] ∧ g2 ≠ [] ∧ (∀ c ∈ g1, isDigit c = true) ∧ (∀ c ∈ g2, isDigit c = true) := by
  unfold physPortReMatchAt at h
  split at h
  · rename_i r1
    simp only at h
    split at h
    · rename_i r2 hdrop
      split at h
      · cases h
      · rename_i hne
        have h2 := Option.some.inj h
        have hg1 : List.takeWhile isDigit r1 = g1 := (Prod.mk.inj (Prod.mk.inj h2).2).1
        have hg2 : List.takeWhile isDigit r2 = g2 := (Prod.mk.inj (Prod.mk.inj h2).2).2
        rw [hg1, hg2] at hne
        refine ⟨fun h0 => hne (Or.inl h0), fun h0 => hne (Or.inr h0), ?_, ?_⟩
        · intro c hc; rw [← hg1] at hc; exact List.mem_takeWhile_imp hc
        · intro c hc; rw [← hg2] at hc; exact List.mem_takeWhile_imp hc
    · cases h
  · cases h

theorem physPortReFind_groups (cs w g1 g2 : List Char)
    (h : physPortReFind cs = some (w, g1, g2)) :
    g1 ≠ [] ∧ g2 ≠ [] ∧ (∀ c ∈ g1, isDigit c = true) ∧ (∀ c ∈ g2, isDigit c = true) := by
  induction cs with
  | nil => simp [physPortReFind] at h
  | cons c cs ih =>
    rw [physPortReFind] at h
    cases hm : physPortReMatchAt (c :: cs) with
    | none => rw [hm] at h; exact ih h
    | some m =>
      rw [hm] at h
      simp only at h
      rw [Option.some.inj h] at hm
      exact physPortReMatchAt_groups _ _ _ _ hm

theorem parseUintLoop_digits (ds : List Char) (hds : ∀ c ∈ ds, isDigit c = true) :
    ∀ acc, parseUintLoop acc ds ≠ .invalid := by
  induction ds with
  | nil => intro acc h; simp [parseUintLoop] at h
  | cons d ds ih =>
    intro acc
    rw [parseUintLoop_cons]
    have hd : ¬ ((!isDigit d) = true) := by simp [hds d (List.mem_cons_self _ _)]
    rw [if_neg hd]
    split
    · intro h; cases h
    · split
      · intro h; cases h
      · exact ih (fun c hc => hds c (List.mem_cons_of_mem _ hc)) _

/-- `Atoi` on a non-empty string of decimal digits: a non-negative value without error, or the
largest `int` with a range error. -/
theorem Atoi_digits (ds : List Char) (hne : ds ≠ []) (hds : ∀ c ∈ ds, isDigit c = true) :
    (∃ n : Nat, Atoi (String.mk ds) = ((n : Int), none)) ∨
      Atoi (String.mk ds) = ((2 ^ 63 : Int) - 1, some (.numRange (String.mk ds))) := by
  obtain ⟨c, cs, rfl⟩ := List.exists_cons_of_ne_nil hne
  have hd : isDigit c = true := hds c (List.mem_cons_self _ _)
  have hplus : (c == '+') = false := by
    rw [beq_eq_false_iff_ne]; rintro rfl; revert hd; decide
  have hminus : (c == '-') = false := by
    rw [beq_eq_false_iff_ne]; rintro rfl; revert hd; decide
  unfold Atoi
  simp only [hplus, hminus, Bool.or_false, Bool.false_eq_true, if_false, parseUint,
    List.cons_ne_nil c cs]
  cases hp : parseUintLoop 0 (c :: cs) with
  | invalid => exact absurd hp (parseUintLoop_digits _ hds 0)
  | overflow => right; rfl
  | value n =>
    simp only [Bool.not_false, Bool.true_and, Bool.false_and, Bool.false_eq_true, if_false,
      ge_iff_le, decide_eq_true_eq]
    by_cases hlt : 2 ^ 63 ≤ n
    · right; rw [if_pos hlt]
    · left; rw [if_neg hlt]; exact ⟨n, rfl⟩

/-- When `parsePortName` fails, the `vfRepIndex` it returns is `-1` or the largest `int`. -/
theorem parsePortName_err_vf (s : String) (pf vf : Int) (e : GoError)
    (h : parsePortName s = (pf, vf, some e)) : vf = -1 ∨ vf = 2 ^ 63 - 1 := by
  unfold parsePortName at h
  simp only at h
  split at h
  · cases h
  · split at h
    · rename_i w m1 m2 hfind
      unfold physPortRe_FindStringSubmatch at hfind
      split at hfind
      · cases hfind
      · rename_i wl g1 g2 hf
        obtain ⟨-, hg2, -, hd2⟩ := physPortReFind_groups _ _ _ _ hf
        have hm2 : m2 = String.mk g2 := by
          have := List.cons.inj (List.cons.inj (List.cons.inj hfind).2).2
          exact this.1.symm
        split at h
        · rcases Atoi_digits g2 hg2 hd2 with ⟨n, hn⟩ | hr
          · rw [hm2, hn] at h; cases h
          · rw [hm2, hr] at h
            right
            exact ((Prod.mk.inj (Prod.mk.inj h).2).1).symm
        · left
          exact ((Prod.mk.inj (Prod.mk.inj h).2).1).symm
    · left
      exact ((Prod.mk.inj (Prod.mk.inj h).2).1).symm

/-! ## The representor search apart from the discarded parse error -/

theorem vfRepLoop_first (env : Env) (uplink : String) (vfIndex : Int) (sw : String)
    (pre post : List String) (d : String)
    (hpre : ∀ x ∈ pre, vfRepBody env uplink vfIndex sw x = .next)
    (hd : vfRepBody env uplink vfIndex sw d = .ret d) :
    vfRepLoop env uplink vfIndex sw (pre ++ d :: post) = .returned (d, none) := by
  induction pre with
  | nil => rw [List.nil_append, vfRepLoop, hd]
  | cons p ps ih =>
    rw [List.cons_append, vfRepLoop, hpre p (List.mem_cons_self _ _)]
    exact ih (fun x hx => hpre x (List.mem_cons_of_mem _ hx))

theorem vfRepLoop_none (env : Env) (uplink : String) (vfIndex : Int) (sw : String)
    (devices : List String)
    (h : ∀ x ∈ devices, vfRepBody env uplink vfIndex sw x = .next) :
    vfRepLoop env uplink vfIndex sw devices =
      .returned ("", some (.errorf ("failed to find VF representor for uplink " ++ uplink))) := by
  induction devices with
  | nil => rfl
  | cons p ps ih =>
    rw [vfRepLoop, h p (List.mem_cons_self _ _)]
    exact ih (fun x hx => h x (List.mem_cons_of_mem _ hx))

theorem lastByteString_of_digit (addr : String) (c : Char) (hg : addr.data.getLast? = some c)
    (hd : isDigit c = true) : lastByteString addr = some (String.singleton c) := by
  unfold lastByteString
  rw [hg]
  have h57 : c.toNat < 128 := by
    unfold isDigit at hd
    simp only [Bool.and_eq_true, decide_eq_true_eq] at hd
    omega
  simp only [if_pos h57]

theorem pfIndexBlock_of_passes (env : Env) (uplink : String) (pf : Int)
    (h : pf = -1 ∨ ∃ addr c, env.getPCIFromDeviceName uplink = .ok addr ∧
      addr.data.getLast? = some c ∧ Atoi (String.singleton c) = (pf, none)) :
    pfIndexBlock env uplink pf = .returned true := by
  unfold pfIndexBlock
  by_cases hp : pf ≠ -1
  · rw [if_pos hp]
    rcases h with h | ⟨addr, c, hpci, hg, hat⟩
    · exact absurd h hp
    · have hd := (Atoi_singleton c pf hat).1
      rw [hpci]
      simp only [lastByteString_of_digit addr c hg hd, hat]
      rw [if_neg]
      simp
  · rw [if_neg hp]

theorem vfRepBody_of_passes (env : Env) (uplink : String) (vfIndex : Int) (sw x : String)
    (h : PassesVfChecks env uplink vfIndex sw x) :
    vfRepBody env uplink vfIndex sw x = .ret x := by
  obtain ⟨hread, port, pf, vf, hport, hparse, hpf, hvf⟩ := h
  unfold vfRepBody
  simp only [hread, hport, hparse, pfIndexBlock_of_passes env uplink pf hpf, hvf, ne_eq,
    not_true_eq_false, if_false, if_true]

theorem vfRepBody_passes_of_ret (env : Env) (uplink : String) (vfIndex : Int) (sw x : String)
    (h0 : 0 ≤ vfIndex) (hmax : vfIndex ≠ 2 ^ 63 - 1)
    (h : vfRepBody env uplink vfIndex sw x = .ret x) :
    PassesVfChecks env uplink vfIndex sw x := by
  obtain ⟨hread, port, hport, hblock, hvf⟩ := vfRepBody_ret_checks env uplink vfIndex sw x h
  refine ⟨hread, port, (parsePortName port).1, (parsePortName port).2.1, hport, ?_, ?_, hvf⟩
  · cases he : (parsePortName port).2.2 with
    | none => exact Prod.ext rfl (Prod.ext rfl he)
    | some e =>
      have hp : parsePortName port = ((parsePortName port).1, (parsePortName port).2.1, some e) :=
        Prod.ext rfl (Prod.ext rfl he)
      rcases parsePortName_err_vf port _ _ e hp with hv | hv
      · rw [hvf] at hv; omega
      · rw [hvf] at hv; exact absurd hv hmax
  · by_cases hp : (parsePortName port).1 = -1
    · exact Or.inl hp
    · obtain ⟨addr, c, hpci, hg, -, hat⟩ := pfIndexBlock_present env uplink _ hp hblock
      exact Or.inr ⟨addr, c, hpci, hg, hat⟩

theorem vfRepBody_no_panic (env : Env) (uplink : String) (vfIndex : Int) (sw x : String)
    (haddr : ∀ addr, env.getPCIFromDeviceName uplink = .ok addr → addr ≠ "") :
    vfRepBody env uplink vfIndex sw x ≠ .panic := by
  have hblock : ∀ pf, pfIndexBlock env uplink pf ≠ .panicked := by
    intro pf
    unfold pfIndexBlock
    split
    · split
      · intro h; cases h
      · rename_i addr hpci
        have hne := haddr addr hpci
        have hl : lastByteString addr ≠ none := by
          unfold lastByteString
          cases hg : addr.data.getLast? with
          | none =>
            exfalso
            apply hne
            have hd : addr.data = [] := List.getLast?_eq_none_iff.mp hg
            cases addr
            simp only at hd
            rw [hd]
          | some c => simp
        split
        · rename_i hl2; exact absurd hl2 hl
        · rename_i last hlast
          intro h
          simp only at h
          by_cases hc : pf ≠ (Atoi last).1 ∨ (Atoi last).2 ≠ none
          · rw [if_pos hc] at h; cases h
          · rw [if_neg hc] at h; cases h
    · intro h; cases h
  unfold vfRepBody
  simp only
  split
  · intro h; cases h
  · split
    · intro h; cases h
    · split
      · intro h; cases h
      · split
        · rename_i hb; exact absurd hb (hblock _)
        · intro h; cases h
        · split <;> (intro h; cases h)

/-- The representor search on targets that no failed parse can yield (`0 ≤ vfIndex`,
`vfIndex ≠ 2^63 - 1`) and with a PCI address that, when resolved, is not empty: the sibling
returned is the first one in listing order that passes steps (a)-(e), and when none passes
the not-found error is returned. -/
theorem GetVfRepresentor_first_match (env : Env) (uplink : String) (vfIndex : Int)
    (sw : String) (devices : List String)
    (hsw : env.ReadFile (swIDFile env uplink) = .ok sw) (hne : sw ≠ "")
    (hdir : env.ReadDir (env.Join [env.NetSysDir, uplink, "subsystem"]) = .ok devices)
    (h0 : 0 ≤ vfIndex) (hmax : vfIndex ≠ 2 ^ 63 - 1)
    (haddr : ∀ addr, env.getPCIFromDeviceName uplink = .ok addr → addr ≠ "") :
    (∀ pre d post, devices = pre ++ d :: post →
        (∀ x ∈ pre, ¬ PassesVfChecks env uplink vfIndex sw x) →
        PassesVfChecks env uplink vfIndex sw d →
        GetVfRepresentor env uplink vfIndex = .returned (d, none)) ∧
      ((∀ x ∈ devices, ¬ PassesVfChecks env uplink vfIndex sw x) →
        GetVfRepresentor env uplink vfIndex =
          .returned ("", some (.errorf ("failed to find VF representor for uplink " ++ uplink)))) := by
  have hloop : GetVfRepresentor env uplink vfIndex = vfRepLoop env uplink vfIndex sw devices := by
    unfold swIDFile at hsw
    unfold GetVfRepresentor
    simp only [hsw, hne, hdir, if_false]
  have hnext : ∀ x, ¬ PassesVfChecks env uplink vfIndex sw x →
      vfRepBody env uplink vfIndex sw x = .next := by
    intro x hx
    cases hb : vfRepBody env uplink vfIndex sw x with
    | next => rfl
    | panic => exact absurd hb (vfRepBody_no_panic env uplink vfIndex sw x haddr)
    | ret name =>
      have hname := vfRepBody_ret_name env uplink vfIndex sw x name hb
      rw [hname] at hb
      exact absurd (vfRepBody_passes_of_ret env uplink vfIndex sw x h0 hmax hb) hx
  constructor
  · intro pre d post hl hpre hd
    rw [hloop, hl]
    exact vfRepLoop_first env uplink vfIndex sw pre post d (fun x hx => hnext x (hpre x hx))
      (vfRepBody_of_passes env uplink vfIndex sw d hd)
  · intro hall
    rw [hloop]
    exact vfRepLoop_none env uplink vfIndex sw devices (fun x hx => hnext x (hall x hx))

/-- The fixture of the specification satisfies the hypotheses of
`GetVfRepresentor_first_match`: target 1 gives `enp_1`, the first sibling that passes. -/
theorem GetVfRepresentor_first_match_fixture :
    GetVfRepresentor (testEnv "p0" "111111" "111111") "eth0" 1 = .returned ("enp_1", none) := by
  have haddr : ∀ addr, (testEnv "p0" "111111" "111111").getPCIFromDeviceName "eth0" = .ok addr →
      addr ≠ "" := by
    intro addr h
    have h2 : (testEnv "p0" "111111" "111111").getPCIFromDeviceName "eth0" =
        .ok "0000:03:00.0" := rfl
    rw [h2] at h
    rw [← Except.ok.inj h]
    decide
  refine (GetVfRepresentor_first_match (testEnv "p0" "111111" "111111") "eth0" 1 "111111"
    ["enp_0", "enp_1", "eth0"] rfl (by decide) rfl (by decide) (by decide) haddr).1
    ["enp_0"] "enp_1" ["eth0"] rfl ?_ ?_
  · intro x hx
    rw [List.mem_singleton] at hx
    subst hx
    rintro ⟨-, port, pf, vf, hport, hparse, -, hvf⟩
    have h2 : getNetDevPhysPortName (testEnv "p0" "111111" "111111") "enp_0" = .ok "pf0vf0" := rfl
    rw [h2] at hport
    rw [← Except.ok.inj hport] at hparse
    have h3 : parsePortName "pf0vf0" = (0, 0, none) := by decide
    rw [h3] at hparse
    have h4 : (0 : Int) = vf := (Prod.mk.inj (Prod.mk.inj hparse).2).1
    omega
  · exact ⟨rfl, "pf0vf1", 0, 1, rfl, by decide, Or.inr ⟨"0000:03:00.0", '0', rfl, rfl, by decide⟩,
      rfl⟩

/-! ## Claims on `isSwitchdev` -/

/-- C14: `isSwitchdev` is a total boolean function; it returns `true` exactly when reading
`<NetSysDir>/<device>/phys_switch_id` succeeds and the raw, untrimmed content has length
greater than zero; a read error gives `false`; non-empty content made only of white space,
such as a single newline, gives `true`. -/
theorem isSwitchdev_true_iff (env : Env) (device : String) :
    (isSwitchdev env device = true ↔
        ∃ raw, env.ReadFile (env.Join [env.NetSysDir, device, "phys_switch_id"]) = .ok raw ∧
          0 < raw.length) ∧
      (∀ e, env.ReadFile (env.Join [env.NetSysDir, device, "phys_switch_id"]) = .error e →
        isSwitchdev env device = false) ∧
      (∀ raw, env.ReadFile (env.Join [env.NetSysDir, device, "phys_switch_id"]) = .ok raw →
        raw ≠ "" → (∀ c ∈ raw.data, isSpace c = true) → isSwitchdev env device = true) ∧
      (env.ReadFile (env.Join [env.NetSysDir, device, "phys_switch_id"]) = .ok "\n" →
        isSwitchdev env device = true) := by
  have hlen : ∀ raw : String, 0 < raw.length ↔ raw ≠ "" := by
    intro raw
    cases raw with
    | mk data =>
      cases data with
      | nil => simp [String.length]
      | cons a as =>
        simp only [String.length, List.length_cons, Nat.zero_lt_succ, true_iff]
        intro h
        have h2 := congrArg String.data h
        cases h2
  have hiff := isSwitchdev_iff env device
  unfold HasSwitchID swIDFile netdevPhysSwitchID at hiff
  refine ⟨?_, ?_, ?_, ?_⟩
  · rw [hiff]
    constructor
    · rintro ⟨id, hr, hne⟩; exact ⟨id, hr, (hlen id).mpr hne⟩
    · rintro ⟨id, hr, hl⟩; exact ⟨id, hr, (hlen id).mp hl⟩
  · intro e he
    cases hb : isSwitchdev env device with
    | false => rfl
    | true =>
      obtain ⟨id, hr, -⟩ := hiff.mp hb
      rw [he] at hr
      cases hr
  · intro raw hr hne _
    exact hiff.mpr ⟨raw, hr, hne⟩
  · intro hr
    exact hiff.mpr ⟨"\n", hr, by decide⟩

/-! ## What `GetVfRepresentor` has checked on the sibling it returns -/

theorem GetVfRepresentor_ok_body (env : Env) (uplink : String) (vfIndex : Int)
    (d : String) (h : GetVfRepresentor env uplink vfIndex = .returned (d, none)) :
    ∃ sw devices,
      env.ReadFile (env.Join [env.NetSysDir, uplink, netdevPhysSwitchID]) = .ok sw ∧ sw ≠ "" ∧
      env.ReadDir (env.Join [env.NetSysDir, uplink, "subsystem"]) = .ok devices ∧
      d ∈ devices ∧ vfRepBody env uplink vfIndex sw d = .ret d := by
  unfold GetVfRepresentor at h
  simp only at h
  split at h
  · cases h
  · rename_i sw hread
    split at h
    · cases h
    · rename_i hne
      split at h
      · cases h
      · rename_i devices hdir
        obtain ⟨hmem, hbody⟩ := vfRepLoop_ok_mem env uplink vfIndex sw devices d h
        exact ⟨sw, devices, hread, hne, hdir, hmem, hbody⟩

/-- C16: if `GetVfRepresentor` returns `d` without error, then the uplink's `phys_switch_id`
was read with non-empty content `sw`, `d` is an entry of the listing of
`<NetSysDir>/<uplink>/subsystem`, the `phys_switch_id` of `d` is readable with raw content
equal to `sw`, the `phys_port_name` of `d` is readable, and the `vfRepIndex` that
`parsePortName` yields for it is the requested `vfIndex`. So no device whose raw switch id
differs from `sw`, be it only by surrounding white space, is returned. -/
theorem GetVfRepresentor_returned_checks (env : Env) (uplink : String) (vfIndex : Int)
    (d : String) (h : GetVfRepresentor env uplink vfIndex = .returned (d, none)) :
    ∃ sw devices port,
      env.ReadFile (env.Join [env.NetSysDir, uplink, "phys_switch_id"]) = .ok sw ∧ sw ≠ "" ∧
      env.ReadDir (env.Join [env.NetSysDir, uplink, "subsystem"]) = .ok devices ∧
      d ∈ devices ∧
      env.ReadFile (env.Join [env.Join [env.NetSysDir, d], "phys_switch_id"]) = .ok sw ∧
      getNetDevPhysPortName env d = .ok port ∧
      (parsePortName port).2.1 = vfIndex ∧
      (∀ raw, env.ReadFile (env.Join [env.Join [env.NetSysDir, d], "phys_switch_id"]) = .ok raw →
        raw = sw) := by
  obtain ⟨sw, devices, hread, hne, hdir, hmem, hbody⟩ :=
    GetVfRepresentor_ok_body env uplink vfIndex d h
  obtain ⟨hsw, port, hport, -, hvf⟩ := vfRepBody_ret_checks env uplink vfIndex sw d hbody
  refine ⟨sw, devices, port, hread, hne, hdir, hmem, hsw, hport, hvf, ?_⟩
  intro raw hraw
  unfold netdevPhysSwitchID at hsw
  rw [hsw] at hraw
  exact (Except.ok.inj hraw).symm

/-- C16 at the fixture of the specification: target 1 gives `enp_1`. -/
theorem GetVfRepresentor_returned_checks_witness :
    ∃ sw devices port,
      (testEnv "p0" "111111" "111111").ReadFile
        ((testEnv "p0" "111111" "111111").Join
          [(testEnv "p0" "111111" "111111").NetSysDir, "eth0", "phys_switch_id"]) = .ok sw ∧
      sw ≠ "" ∧
      (testEnv "p0" "111111" "111111").ReadDir
        ((testEnv "p0" "111111" "111111").Join
          [(testEnv "p0" "111111" "111111").NetSysDir, "eth0", "subsystem"]) = .ok devices ∧
      "enp_1" ∈ devices ∧
      (testEnv "p0" "111111" "111111").ReadFile
        ((testEnv "p0" "111111" "111111").Join
          [(testEnv "p0" "111111" "111111").Join
            [(testEnv "p0" "111111" "111111").NetSysDir, "enp_1"], "phys_switch_id"]) = .ok sw ∧
      getNetDevPhysPortName (testEnv "p0" "111111" "111111") "enp_1" = .ok port ∧
      (parsePortName port).2.1 = 1 ∧
      (∀ raw, (testEnv "p0" "111111" "111111").ReadFile
        ((testEnv "p0" "111111" "111111").Join
          [(testEnv "p0" "111111" "111111").Join
            [(testEnv "p0" "111111" "111111").NetSysDir, "enp_1"], "phys_switch_id"]) = .ok raw →
        raw = sw) :=
  GetVfRepresentor_returned_checks (testEnv "p0" "111111" "111111") "eth0" 1 "enp_1" (by decide)

/-- C14 at two states: a `phys_switch_id` holding a single newline, and no file at all. -/
theorem isSwitchdev_true_iff_witness :
    isSwitchdev (fakeEnv [("/sys/class/net/eth0/phys_switch_id", "\n")] [] []) "eth0" = true ∧
      isSwitchdev (fakeEnv [] [] []) "eth0" = false :=
  ⟨(isSwitchdev_true_iff (fakeEnv [("/sys/class/net/eth0/phys_switch_id", "\n")] [] [])
      "eth0").2.2.2 rfl,
   (isSwitchdev_true_iff (fakeEnv [] [] []) "eth0").2.1
      "open /sys/class/net/eth0/phys_switch_id: file does not exist" rfl⟩

/-! ## Port names of uplink ports -/

theorem physPortReMatchAt_head (c : Char) (cs : List Char) (hc : c ≠ 'p') :
    physPortReMatchAt (c :: cs) = none := by
  unfold physPortReMatchAt
  split
  · rename_i r1 heq
    exact absurd (List.cons.inj heq).1 hc
  · rfl

theorem physPortReMatchAt_second (c : Char) (cs : List Char) (hc : c ≠ 'f') :
    physPortReMatchAt ('p' :: c :: cs) = none := by
  unfold physPortReMatchAt
  split
  · rename_i r1 heq
    exact absurd (List.cons.inj (List.cons.inj heq).2).1 hc
  · rfl

theorem physPortReFind_digits (cs : List Char) (h : ∀ c ∈ cs, isDigit c = true) :
    physPortReFind cs = none := by
  induction cs with
  | nil => rfl
  | cons c cs ih =>
    have hc : c ≠ 'p' := by
      rintro rfl
      have := h 'p' (List.mem_cons_self _ _)
      revert this
      decide
    rw [physPortReFind, physPortReMatchAt_head c cs hc]
    exact ih (fun x hx => h x (List.mem_cons_of_mem _ hx))

theorem Atoi_letter (s : String) (c : Char) (cs : List Char) (hs : s.data = c :: cs)
    (hd : isDigit c = false) (hplus : c ≠ '+') (hminus : c ≠ '-') :
    Atoi s = (0, some (.numSyn s)) := by
  have h1 : (c == '+') = false := beq_eq_false_iff_ne.mpr hplus
  have h2 : (c == '-') = false := beq_eq_false_iff_ne.mpr hminus
  unfold Atoi
  rw [hs]
  simp only [h1, h2, Bool.or_false, Bool.false_eq_true, if_false, parseUint,
    List.cons_ne_nil c cs, parseUintLoop_cons, hd, Bool.not_false, if_true]

theorem TrimSpace_self (s : String) (h : ∀ c ∈ s.data, isSpace c = false) :
    TrimSpace s = s := by
  have := trimSpaceChars_pad [] s.data [] (by simp) (by simp) h
  unfold TrimSpace
  simp only [List.nil_append, List.append_nil] at this
  rw [this]

/-- On a port name of the form `p<digits>` the parse fails and returns `-1` for both
indices. -/
theorem parsePortName_uplink_name (s : String) (h : IsUplinkPortName s) :
    parsePortName s = (-1, -1, some (.errorf ("failed to parse physPortName " ++ s))) := by
  obtain ⟨ds, hne, hds, hdata⟩ := h
  have htrim : TrimSpace s = s := by
    apply TrimSpace_self
    intro c hc
    rw [hdata] at hc
    rcases List.mem_cons.mp hc with rfl | hc
    · decide
    · exact isDigit_not_space c (hds c hc)
  have hatoi : Atoi s = (0, some (.numSyn s)) :=
    Atoi_letter s 'p' ds hdata (by decide) (by decide) (by decide)
  have hfind : physPortRe_FindStringSubmatch s = [] := by
    unfold physPortRe_FindStringSubmatch
    rw [hdata]
    obtain ⟨d, ds2, rfl⟩ := List.exists_cons_of_ne_nil hne
    have hd : d ≠ 'f' := by
      rintro rfl
      have := hds 'f' (List.mem_cons_self _ _)
      revert this
      decide
    rw [physPortReFind, physPortReMatchAt_second d ds2 hd, physPortReFind_digits _ hds]
  unfold parsePortName
  simp only [htrim, hatoi, hfind]

/-- C18: for every target `vfIndex ≥ 0`, a device whose trimmed `phys_port_name` is exactly
`p` followed by decimal digits (an uplink port, the uplink itself included) is never returned
by `GetVfRepresentor`. -/
theorem GetVfRepresentor_never_uplink_port (env : Env) (uplink : String) (vfIndex : Int)
    (x port : String) (h0 : 0 ≤ vfIndex) (hport : getNetDevPhysPortName env x = .ok port)
    (hname : IsUplinkPortName port) :
    GetVfRepresentor env uplink vfIndex ≠ .returned (x, none) := by
  intro h
  obtain ⟨sw, -, -, -, -, -, hbody⟩ := GetVfRepresentor_ok_body env uplink vfIndex x h
  obtain ⟨-, port2, hport2, -, hvf⟩ := vfRepBody_ret_checks env uplink vfIndex sw x hbody
  rw [hport] at hport2
  rw [← Except.ok.inj hport2, parsePortName_uplink_name port hname] at hvf
  simp only at hvf
  omega

/-- C18 at the fixture of the specification: the uplink `eth0`, port name `p0`, target 0. -/
theorem GetVfRepresentor_never_uplink_port_witness :
    GetVfRepresentor (testEnv "p0" "111111" "111111") "eth0" 0 ≠ .returned ("eth0", none) :=
  GetVfRepresentor_never_uplink_port (testEnv "p0" "111111" "111111") "eth0" 0 "eth0" "p0"
    (by decide) rfl ⟨['0'], by decide, by decide, rfl⟩

/-! ## Legacy port names and the uplink search -/

theorem parseUintLoop_value_digits (cs : List Char) : ∀ acc n,
    parseUintLoop acc cs = .value n → ∀ c ∈ cs, isDigit c = true := by
  induction cs with
  | nil => intro acc n _ c hc; cases hc
  | cons x xs ih =>
    intro acc n h c hc
    rw [parseUintLoop_cons] at h
    by_cases hd : (!isDigit x) = true
    · rw [if_pos hd] at h; cases h
    · rw [if_neg hd] at h
      by_cases hcut : acc ≥ uintCutoff
      · rw [if_pos hcut] at h; cases h
      · rw [if_neg hcut] at h
        by_cases hm : acc * 10 + (x.toNat - 48) > uintMax
        · rw [if_pos hm] at h; cases h
        · rw [if_neg hm] at h
          rcases List.mem_cons.mp hc with rfl | hc
          · simpa using hd
          · exact ih _ _ h c hc

/-- The shape of a string that `Atoi` accepts: an optional sign followed by decimal digits; the
value is negative only after a minus sign. -/
theorem Atoi_ok_shape (s : String) (v : Int) (h : Atoi s = (v, none)) :
    ∃ c cs, s.data = c :: cs ∧ (c = '+' ∨ c = '-' ∨ isDigit c = true) ∧
      (∀ x ∈ cs, isDigit x = true) ∧ (0 ≤ v ∨ c = '-') := by
  unfold Atoi at h
  split at h
  · cases h
  · rename_i c cs hdata
    simp only at h
    refine ⟨c, cs, hdata, ?_⟩
    split at h
    · cases h
    · split at h <;> cases h
    · rename_i un hp
      have hv : 0 ≤ v ∨ c = '-' := by
        by_cases hneg : c = '-'
        · exact Or.inr hneg
        · left
          have hn : (c == '-') = false := beq_eq_false_iff_ne.mpr hneg
          simp only [hn, Bool.not_false, Bool.true_and, Bool.false_and, Bool.false_eq_true,
            if_false] at h
          split at h
          · cases h
          · have := (Prod.mk.inj h).1
            omega
      unfold parseUint at hp
      by_cases hsign : (c == '+' || c == '-') = true
      · rw [if_pos hsign] at hp
        by_cases hnil : cs = []
        · rw [if_pos hnil] at hp; cases hp
        · rw [if_neg hnil] at hp
          have hdig := parseUintLoop_value_digits cs 0 un hp
          refine ⟨?_, hdig, hv⟩
          rcases Bool.or_eq_true_iff.mp hsign with h1 | h1
          · exact Or.inl (beq_iff_eq.mp h1)
          · exact Or.inr (Or.inl (beq_iff_eq.mp h1))
      · rw [if_neg hsign, if_neg (List.cons_ne_nil c cs)] at hp
        have hdig := parseUintLoop_value_digits (c :: cs) 0 un hp
        exact ⟨Or.inr (Or.inr (hdig c (List.mem_cons_self _ _))),
          fun x hx => hdig x (List.mem_cons_of_mem _ hx), hv⟩

theorem pfPhysPortNameReFind_no_p (l : List Char) (h : ∀ c ∈ l, c ≠ 'p') :
    pfPhysPortNameReFind l = false := by
  induction l with
  | nil => rfl
  | cons c cs ih =>
    have hc : (c == 'p') = false := beq_eq_false_iff_ne.mpr (h c (List.mem_cons_self _ _))
    unfold pfPhysPortNameReFind
    rw [hc, Bool.false_and, Bool.false_or]
    exact ih (fun x hx => h x (List.mem_cons_of_mem _ hx))

theorem MatchString_of_Atoi_ok (s : String) (v : Int) (h : Atoi s = (v, none)) :
    pfPhysPortNameRe_MatchString s = false := by
  obtain ⟨c, cs, hdata, hc, hcs, -⟩ := Atoi_ok_shape s v h
  unfold pfPhysPortNameRe_MatchString
  apply pfPhysPortNameReFind_no_p
  intro x hx
  rw [hdata] at hx
  rcases List.mem_cons.mp hx with rfl | hx
  · rcases hc with rfl | rfl | hd
    · decide
    · decide
    · rintro rfl; revert hd; decide
  · rintro rfl
    have := hcs 'p' hx
    revert this
    decide

theorem uplinkLoop_ok (env : Env) (addr : String) (devices : List String) (d : String)
    (h : uplinkLoop env addr devices = (d, none)) :
    d ∈ devices ∧ uplinkAccepts env d = true := by
  induction devices with
  | nil => simp [uplinkLoop] at h
  | cons x xs ih =>
    rw [uplinkLoop_cons] at h
    by_cases hx : uplinkAccepts env x = true
    · rw [if_pos hx] at h
      have hxd : x = d := (Prod.mk.inj h).1
      subst hxd
      exact ⟨List.mem_cons_self _ _, hx⟩
    · rw [if_neg hx] at h
      obtain ⟨hm, ha⟩ := ih h
      exact ⟨List.mem_cons_of_mem _ hm, ha⟩

/-- C15: a candidate whose `phys_port_name` is readable and whose trimmed content `Atoi`
accepts as an integer (the legacy encoding, such as `5`) is never returned by
`GetUplinkRepresentor`, whatever its `phys_switch_id`. -/
theorem GetUplinkRepresentor_never_legacy_name (env : Env) (vfPciAddress x raw : String)
    (hraw : env.ReadFile (env.Join [env.NetSysDir, x, "phys_port_name"]) = .ok raw)
    (hint : (Atoi (TrimSpace raw)).2 = none) :
    GetUplinkRepresentor env vfPciAddress ≠ (x, none) := by
  intro h
  have hacc : uplinkAccepts env x = true := by
    unfold GetUplinkRepresentor at h
    simp only at h
    split at h
    · cases h
    · rename_i devices hdir
      exact (uplinkLoop_ok env vfPciAddress devices x h).2
  have hport : getNetDevPhysPortName env x = .ok (TrimSpace raw) := by
    unfold getNetDevPhysPortName netdevPhysPortName
    simp only [hraw]
  have hm : pfPhysPortNameRe_MatchString (TrimSpace raw) = false :=
    MatchString_of_Atoi_ok (TrimSpace raw) (Atoi (TrimSpace raw)).1 (Prod.ext rfl hint)
  unfold uplinkAccepts at hacc
  rw [hport] at hacc
  simp only [hm, Bool.and_false] at hacc
  cases hacc

/-- C15 at the test fixture with the legacy port name `5` on the uplink `eth0`. -/
theorem GetUplinkRepresentor_never_legacy_name_witness :
    GetUplinkRepresentor (testEnv "5" "0123" "0124") "0000:03:00.4" ≠ ("eth0", none) :=
  GetUplinkRepresentor_never_legacy_name (testEnv "5" "0123" "0124") "0000:03:00.4" "eth0" "5"
    rfl (by decide)

/-! ## The pattern `pf(\d+)vf(\d+)` finds exactly the strings that contain a match -/

theorem physPortReMatchAt_sound (cs w g1 g2 : List Char)
    (h : physPortReMatchAt cs = some (w, g1, g2)) :
    ∃ post, cs = 'p' :: 'f' :: g1 ++ 'v' :: 'f' :: g2 ++ post := by
  unfold physPortReMatchAt at h
  split at h
  · rename_i r1
    simp only at h
    split at h
    · rename_i r2 hdrop
      split at h
      · cases h
      · have h2 := Option.some.inj h
        have hg1 : List.takeWhile isDigit r1 = g1 := (Prod.mk.inj (Prod.mk.inj h2).2).1
        have hg2 : List.takeWhile isDigit r2 = g2 := (Prod.mk.inj (Prod.mk.inj h2).2).2
        refine ⟨r2.dropWhile isDigit, ?_⟩
        have e1 : r1 = g1 ++ 'v' :: 'f' :: r2 := by
          rw [← hg1, ← hdrop]
          exact (List.takeWhile_append_dropWhile isDigit r1).symm
        have e2 : r2 = g2 ++ r2.dropWhile isDigit := by
          rw [← hg2]
          exact (List.takeWhile_append_dropWhile isDigit r2).symm
        rw [e1]
        conv => lhs; rw [e2]
        simp
    · cases h
  · cases h

theorem physPortReFind_sound (cs w g1 g2 : List Char)
    (h : physPortReFind cs = some (w, g1, g2)) :
    ∃ pre post, cs = pre ++ 'p' :: 'f' :: g1 ++ 'v' :: 'f' :: g2 ++ post := by
  induction cs with
  | nil => simp [physPortReFind] at h
  | cons c cs ih =>
    rw [physPortReFind] at h
    cases hm : physPortReMatchAt (c :: cs) with
    | none =>
      rw [hm] at h
      obtain ⟨pre, post, hcs⟩ := ih h
      exact ⟨c :: pre, post, by rw [hcs]; simp⟩
    | some m =>
      rw [hm] at h
      simp only at h
      rw [Option.some.inj h] at hm
      obtain ⟨post, hcs⟩ := physPortReMatchAt_sound _ _ _ _ hm
      exact ⟨[], post, by rw [hcs]; simp⟩

theorem physPortReMatchAt_complete (d1 d2 post : List Char) (h1 : d1 ≠ []) (h2 : d2 ≠ [])
    (hd1 : ∀ c ∈ d1, isDigit c = true) (hd2 : ∀ c ∈ d2, isDigit c = true) :
    physPortReMatchAt ('p' :: 'f' :: (d1 ++ 'v' :: 'f' :: (d2 ++ post))) ≠ none := by
  have hv : isDigit 'v' = false := by decide
  obtain ⟨ht, hdrop⟩ := takeWhile_append_stop isDigit d1 ('f' :: (d2 ++ post)) 'v' hd1 hv
  obtain ⟨a, as, rfl⟩ := List.exists_cons_of_ne_nil h2
  have ha : isDigit a = true := hd2 a (List.mem_cons_self _ _)
  have hg2 : List.takeWhile isDigit (a :: as ++ post) ≠ [] := by
    simp [List.takeWhile, ha]
  unfold physPortReMatchAt
  simp only [ht, hdrop]
  rw [if_neg]
  · simp
  · rintro (h | h)
    · exact h1 h
    · exact hg2 h

theorem physPortReFind_complete (pre rest : List Char) (h : physPortReMatchAt rest ≠ none) :
    physPortReFind (pre ++ rest) ≠ none := by
  have hrest : physPortReFind rest ≠ none := by
    cases rest with
    | nil => exact absurd rfl h
    | cons c cs =>
      rw [physPortReFind]
      cases hm : physPortReMatchAt (c :: cs) with
      | none => exact absurd hm h
      | some m => simp
  induction pre with
  | nil => exact hrest
  | cons a as ih =>
    rw [List.cons_append, physPortReFind]
    cases hm : physPortReMatchAt (a :: (as ++ rest)) with
    | none => exact ih
    | some m => simp

theorem containsPfVf_iff (s : String) : ContainsPfVf s ↔ physPortReFind s.data ≠ none := by
  constructor
  · rintro ⟨pre, d1, d2, post, h1, h2, hd1, hd2, hdata⟩
    have hre : s.data = pre ++ 'p' :: 'f' :: (d1 ++ 'v' :: 'f' :: (d2 ++ post)) := by
      rw [hdata]; simp
    rw [hre]
    exact physPortReFind_complete pre _ (physPortReMatchAt_complete d1 d2 post h1 h2 hd1 hd2)
  · intro h
    cases hf : physPortReFind s.data with
    | none => exact absurd hf h
    | some m =>
      obtain ⟨w, g1, g2⟩ := m
      obtain ⟨hg1, hg2, hd1, hd2⟩ := physPortReFind_groups _ _ _ _ hf
      obtain ⟨pre, post, hdata⟩ := physPortReFind_sound _ _ _ _ hf
      exact ⟨pre, g1, g2, post, hg1, hg2, hd1, hd2, hdata⟩

theorem parsePortName_no_match (s : String) (hint : (Atoi (TrimSpace s)).2 ≠ none)
    (hnone : physPortReFind (TrimSpace s).data = none) :
    parsePortName s =
      (-1, -1, some (.errorf ("failed to parse physPortName " ++ TrimSpace s))) := by
  have hfind : physPortRe_FindStringSubmatch (TrimSpace s) = [] := by
    unfold physPortRe_FindStringSubmatch
    rw [hnone]
  unfold parsePortName
  simp only
  split
  · rename_i v hv
    rw [hv] at hint
    exact absurd rfl hint
  · rw [hfind]

/-- C13: if the trimmed input is neither accepted by `Atoi` as an integer nor contains a match
of `pf<digits>vf<digits>`, `parsePortName` returns `pfRepIndex = -1`, `vfRepIndex = -1` and
the error with message `failed to parse physPortName ` followed by the trimmed input. -/
theorem parsePortName_unrecognized (s : String) (hint : (Atoi (TrimSpace s)).2 ≠ none)
    (hno : ¬ ContainsPfVf (TrimSpace s)) :
    parsePortName s =
      (-1, -1, some (.errorf ("failed to parse physPortName " ++ TrimSpace s))) := by
  apply parsePortName_no_match s hint
  by_contra hne
  exact hno ((containsPfVf_iff _).mpr hne)

/-- C13 at the input `garbage` with surrounding white space. -/
theorem parsePortName_unrecognized_witness :
    parsePortName " garbage\n" =
      (-1, -1, some (.errorf "failed to parse physPortName garbage")) :=
  parsePortName_unrecognized " garbage\n" (by decide)
    (fun h => absurd ((containsPfVf_iff _).mp h) (by decide))

/-! ## Which inputs `parsePortName` accepts, and what it returns for them -/

/-- C11 (the code departs from the claim): `parsePortName` returns `(0, 1)` with a nil error
on `xpf0vf1y`, whose trimmed form is the string itself, which `Atoi` rejects and which is not
exactly `pf<digits>vf<digits>`: the pattern `pf(\d+)vf(\d+)` is not anchored and
`FindStringSubmatch` finds the match inside the string. -/
theorem parsePortName_accepts_embedded_match :
    parsePortName "xpf0vf1y" = (0, 1, none) ∧ TrimSpace "xpf0vf1y" = "xpf0vf1y" ∧
      (Atoi "xpf0vf1y").2 ≠ none ∧ ¬ IsPfVfName "xpf0vf1y" := by
  refine ⟨by decide, by decide, by decide, ?_⟩
  rintro ⟨d1, d2, -, -, -, -, hdata⟩
  have h2 : ("xpf0vf1y" : String).data = ['x', 'p', 'f', '0', 'v', 'f', '1', 'y'] := rfl
  rw [h2] at hdata
  simp at hdata

/-- What holds of every accepted input: `Atoi` accepts its trimmed form, or the trimmed form
contains a match of `pf<digits>vf<digits>`. -/
theorem parsePortName_ok_shape (s : String) (pf vf : Int)
    (h : parsePortName s = (pf, vf, none)) :
    (Atoi (TrimSpace s)).2 = none ∨ ContainsPfVf (TrimSpace s) := by
  by_cases hint : (Atoi (TrimSpace s)).2 = none
  · exact Or.inl hint
  · right
    rw [containsPfVf_iff]
    intro hnone
    rw [parsePortName_no_match s hint hnone] at h
    cases h

/-- C12 (the code departs from the claim): on the legacy input `-5` the parse succeeds with a
nil error and `vfRepIndex = -5`, which is negative: the legacy branch hands the trimmed string
to `strconv.Atoi`, which accepts a sign, and nothing checks the result. On `-1` it returns
`(-1, -1)` with a nil error, the pair that otherwise marks a failed parse. -/
theorem parsePortName_negative_legacy :
    parsePortName "-5" = (-1, -5, none) ∧ ¬ ((0 : Int) ≤ (parsePortName "-5").2.1) ∧
      parsePortName "-1" = (-1, -1, none) := by
  decide

theorem Atoi_minus_only (s : String) (h : s.data = ['-']) :
    Atoi s = (0, some (.numSyn s)) := by
  unfold Atoi
  rw [h]
  rfl

/-- What holds of the indices of every accepted input: `pfRepIndex` is `-1` or non-negative,
and `vfRepIndex` is non-negative unless the trimmed input is a minus sign followed by one or
more decimal digits, in which case `pfRepIndex` is `-1` and `vfRepIndex` is the value `Atoi`
reads from the trimmed input. -/
theorem parsePortName_index_ranges (s : String) (pf vf : Int)
    (h : parsePortName s = (pf, vf, none)) :
    (pf = -1 ∨ 0 ≤ pf) ∧
      (0 ≤ vf ∨ (pf = -1 ∧ Atoi (TrimSpace s) = (vf, none) ∧
        ∃ ds : List Char, ds ≠ [] ∧ (∀ c ∈ ds, isDigit c = true) ∧
          (TrimSpace s).data = '-' :: ds)) := by
  unfold parsePortName at h
  simp only at h
  split at h
  · rename_i v hv
    have hpf : (-1 : Int) = pf := (Prod.mk.inj h).1
    have hvf : v = vf := (Prod.mk.inj (Prod.mk.inj h).2).1
    obtain ⟨c, cs, hdata, -, hcs, hsign⟩ := Atoi_ok_shape _ v hv
    refine ⟨Or.inl hpf.symm, ?_⟩
    rcases hsign with h0 | hc
    · left; rw [← hvf]; exact h0
    · right
      refine ⟨hpf.symm, by rw [← hvf]; exact hv, cs, ?_, hcs, by rw [hdata, hc]⟩
      rintro rfl
      rw [hc] at hdata
      rw [Atoi_minus_only _ hdata] at hv
      cases hv
  · split at h
    · rename_i w m1 m2 hfind
      unfold physPortRe_FindStringSubmatch at hfind
      split at hfind
      · cases hfind
      · rename_i wl g1 g2 hf
        obtain ⟨hg1, hg2, hd1, hd2⟩ := physPortReFind_groups _ _ _ _ hf
        have hm1 : m1 = String.mk g1 :=
          ((List.cons.inj (List.cons.inj hfind).2).1).symm
        have hm2 : m2 = String.mk g2 :=
          ((List.cons.inj (List.cons.inj (List.cons.inj hfind).2).2).1).symm
        split at h
        · rename_i pfv hpfv
          have hpf : pfv = pf := (Prod.mk.inj h).1
          have hvf : (Atoi m2).1 = vf := (Prod.mk.inj (Prod.mk.inj h).2).1
          have herr : (Atoi m2).2 = none := (Prod.mk.inj (Prod.mk.inj h).2).2
          constructor
          · right
            rcases Atoi_digits g1 hg1 hd1 with ⟨n, hn⟩ | hr
            · rw [hm1, hn] at hpfv
              have : (n : Int) = pfv := (Prod.mk.inj hpfv).1
              omega
            · rw [hm1, hr] at hpfv
              cases hpfv
          · left
            rcases Atoi_digits g2 hg2 hd2 with ⟨n, hn⟩ | hr
            · rw [hm2, hn] at hvf
              simp only at hvf
              omega
            · rw [hm2, hr] at herr
              cases herr
        · cases h
    · cases h

/-- The hypothesis of `parsePortName_index_ranges` holds at the inputs `-5` and `pf0vf3`. -/
theorem parsePortName_index_ranges_fixture :
    (parsePortName "-5" = (-1, -5, none) ∧
        (((-1 : Int) = -1 ∨ (0 : Int) ≤ -1) ∧
          ((0 : Int) ≤ -5 ∨ ((-1 : Int) = -1 ∧ Atoi (TrimSpace "-5") = (-5, none) ∧
            ∃ ds : List Char, ds ≠ [] ∧ (∀ c ∈ ds, isDigit c = true) ∧
              (TrimSpace "-5").data = '-' :: ds)))) ∧
      (parsePortName "pf0vf3" = (0, 3, none) ∧
        (((0 : Int) = -1 ∨ (0 : Int) ≤ 0) ∧
          ((0 : Int) ≤ 3 ∨ ((0 : Int) = -1 ∧ Atoi (TrimSpace "pf0vf3") = (3, none) ∧
            ∃ ds : List Char, ds ≠ [] ∧ (∀ c ∈ ds, isDigit c = true) ∧
              (TrimSpace "pf0vf3").data = '-' :: ds)))) :=
  ⟨⟨by decide, parsePortName_index_ranges "-5" (-1) (-5) (by decide)⟩,
   ⟨by decide, parsePortName_index_ranges "pf0vf3" 0 3 (by decide)⟩⟩

/-! ## PCI function resolution that does not yield a digit -/

/-- C17 (the code departs from the claim): in the fixture of the specification with the
uplink's PCI address resolved, without error, to the empty string, `GetVfRepresentor` does
not return: the first sibling with a present `pfRepIndex` makes it evaluate
`pfPCIAddress[len(pfPCIAddress)-1]` with an index out of range, and the program panics. -/
theorem GetVfRepresentor_panics_on_empty_address :
    emptyAddrEnv.getPCIFromDeviceName "eth0" = .ok "" ∧
      getNetDevPhysPortName emptyAddrEnv "enp_0" = .ok "pf0vf0" ∧
      (parsePortName "pf0vf0").1 ≠ -1 ∧
      GetVfRepresentor emptyAddrEnv "eth0" 1 = .panicked := by
  decide

theorem pfIndexBlock_unresolved (env : Env) (uplink : String) (pf : Int) (hpf : pf ≠ -1)
    (hpci : (∃ e, env.getPCIFromDeviceName uplink = .error e) ∨
      (∃ addr c, env.getPCIFromDeviceName uplink = .ok addr ∧ addr.data.getLast? = some c ∧
        isDigit c = false)) :
    pfIndexBlock env uplink pf = .returned false := by
  unfold pfIndexBlock
  rw [if_pos hpf]
  rcases hpci with ⟨e, he⟩ | ⟨addr, c, haddr, hlast, hc⟩
  · rw [he]
  · rw [haddr]
    simp only
    cases hl : lastByteString addr with
    | none =>
      unfold lastByteString at hl
      rw [hlast] at hl
      cases hl
    | some last =>
      simp only
      by_cases hcond : pf ≠ (Atoi last).1 ∨ (Atoi last).2 ≠ none
      · rw [if_pos hcond]
      · exfalso
        have herr : (Atoi last).2 = none := by
          by_contra hne; exact hcond (Or.inr hne)
        obtain ⟨c2, hg, hd, -⟩ :=
          lastByteString_Atoi addr last (Atoi last).1 hl (Prod.ext rfl herr)
        rw [hlast] at hg
        rw [Option.some.inj hg, hd] at hc
        cases hc

theorem vfRepLoop_total (env : Env) (uplink : String) (vfIndex : Int) (sw : String)
    (devices : List String)
    (h : ∀ x ∈ devices, vfRepBody env uplink vfIndex sw x ≠ .panic) :
    (∃ d, vfRepLoop env uplink vfIndex sw devices = .returned (d, none)) ∨
      vfRepLoop env uplink vfIndex sw devices =
        .returned ("", some (.errorf ("failed to find VF representor for uplink " ++ uplink))) := by
  induction devices with
  | nil => right; rfl
  | cons x xs ih =>
    rw [vfRepLoop]
    cases hb : vfRepBody env uplink vfIndex sw x with
    | next => exact ih (fun y hy => h y (List.mem_cons_of_mem _ hy))
    | ret name => left; exact ⟨name, rfl⟩
    | panic => exact absurd hb (h x (List.mem_cons_self _ _))

/-- PCI function resolution that fails, or that yields a non-empty address whose last
character is not a decimal digit, is recoverable: no sibling with a present `pfRepIndex` is
returned, the call does not panic, and it ends with a sibling of the listing whose
`pfRepIndex` is absent and whose `vfRepIndex` is the target, or with the not-found error. -/
theorem GetVfRepresentor_function_unresolved (env : Env) (uplink : String) (vfIndex : Int)
    (sw : String) (devices : List String)
    (hsw : env.ReadFile (swIDFile env uplink) = .ok sw) (hne : sw ≠ "")
    (hdir : env.ReadDir (env.Join [env.NetSysDir, uplink, "subsystem"]) = .ok devices)
    (hpci : (∃ e, env.getPCIFromDeviceName uplink = .error e) ∨
      (∃ addr c, env.getPCIFromDeviceName uplink = .ok addr ∧ addr.data.getLast? = some c ∧
        isDigit c = false)) :
    (∀ x port, getNetDevPhysPortName env x = .ok port → (parsePortName port).1 ≠ -1 →
        GetVfRepresentor env uplink vfIndex ≠ .returned (x, none)) ∧
      ((∃ d port, GetVfRepresentor env uplink vfIndex = .returned (d, none) ∧ d ∈ devices ∧
          getNetDevPhysPortName env d = .ok port ∧ (parsePortName port).1 = -1 ∧
          (parsePortName port).2.1 = vfIndex) ∨
        GetVfRepresentor env uplink vfIndex =
          .returned ("", some (.errorf ("failed to find VF representor for uplink " ++ uplink)))) := by
  have hloop : GetVfRepresentor env uplink vfIndex = vfRepLoop env uplink vfIndex sw devices := by
    unfold swIDFile at hsw
    unfold GetVfRepresentor
    simp only [hsw, hne, hdir, if_false]
  have habsent : ∀ d, vfRepBody env uplink vfIndex sw d = .ret d →
      ∃ port, getNetDevPhysPortName env d = .ok port ∧ (parsePortName port).1 = -1 ∧
        (parsePortName port).2.1 = vfIndex := by
    intro d hbody
    obtain ⟨-, port, hport, hblock, hvf⟩ := vfRepBody_ret_checks env uplink vfIndex sw d hbody
    refine ⟨port, hport, ?_, hvf⟩
    by_contra hpf
    rw [pfIndexBlock_unresolved env uplink _ hpf hpci] at hblock
    cases hblock
  have haddr : ∀ addr, env.getPCIFromDeviceName uplink = .ok addr → addr ≠ "" := by
    intro addr ha
    rcases hpci with ⟨e, he⟩ | ⟨addr2, c, ha2, hlast, -⟩
    · rw [he] at ha; cases ha
    · rw [ha2] at ha
      rw [← Except.ok.inj ha]
      rintro rfl
      cases hlast
  constructor
  · intro x port hport hpf hret
    rw [hloop] at hret
    obtain ⟨-, hbody⟩ := vfRepLoop_ok_mem env uplink vfIndex sw devices x hret
    obtain ⟨port2, hport2, hpf2, -⟩ := habsent x hbody
    rw [hport] at hport2
    rw [Except.ok.inj hport2] at hpf
    exact hpf hpf2
  · rw [hloop]
    rcases vfRepLoop_total env uplink vfIndex sw devices
      (fun x _ => vfRepBody_no_panic env uplink vfIndex sw x haddr) with ⟨d, hd⟩ | hnf
    · left
      obtain ⟨hmem, hbody⟩ := vfRepLoop_ok_mem env uplink vfIndex sw devices d hd
      obtain ⟨port, hport, hpf, hvf⟩ := habsent d hbody
      exact ⟨d, port, hd, hmem, hport, hpf, hvf⟩
    · exact Or.inr hnf

/-- The hypotheses of `GetVfRepresentor_function_unresolved` hold in `hexFunctionEnv`; there
the sibling `enp_0` (`pf0vf1`) is passed over and target 1 gives the legacy sibling `enp_1`. -/
theorem GetVfRepresentor_function_unresolved_fixture :
    GetVfRepresentor hexFunctionEnv "eth0" 1 = .returned ("enp_1", none) ∧
    ((∀ x port, getNetDevPhysPortName hexFunctionEnv x = .ok port →
        (parsePortName port).1 ≠ -1 →
        GetVfRepresentor hexFunctionEnv "eth0" 1 ≠ .returned (x, none)) ∧
      ((∃ d port, GetVfRepresentor hexFunctionEnv "eth0" 1 = .returned (d, none) ∧
          d ∈ ["enp_0", "enp_1", "eth0"] ∧
          getNetDevPhysPortName hexFunctionEnv d = .ok port ∧ (parsePortName port).1 = -1 ∧
          (parsePortName port).2.1 = 1) ∨
        GetVfRepresentor hexFunctionEnv "eth0" 1 =
          .returned ("", some (.errorf ("failed to find VF representor for uplink " ++ "eth0"))))) :=
  ⟨by decide,
   GetVfRepresentor_function_unresolved hexFunctionEnv "eth0" 1 "111111"
    ["enp_0", "enp_1", "eth0"] rfl (by decide) rfl
    (Or.inr ⟨"0000:03:00.a", 'a', rfl, rfl, by decide⟩)⟩

end Sriovnet
